import Mathlib

/-!
# surf: script execution and DOM bridge (`browser/js_engine.go`)

A shallow embedding of `JSEngine` (`NewJSEngine`, `Execute`, `fetchExternalScript`,
`setupDOM`, `elementToJSValue`, `selectionToJSArray`) together with the parts of its
collaborators that the engine calls:

* `golang.org/x/net/html` nodes live in a heap of cells addressed by natural numbers
  (Go pointers), so a detached node keeps its identity;
* `goquery.Selection` is the list of node addresses it holds (`Selection.Nodes`);
* a `goja.Runtime` is a heap of script objects, the global bindings and a ghost log of
  the sources handed to `RunString`;
* the collaborators whose code is outside the engine (URL resolution, HTTP, the CSS
  selector compiler, the HTML parser and renderer, the script parser) are fields of `Host`.
-/

namespace Surf

/-! ## `golang.org/x/net/html` -/

/-- The node kinds of `html.NodeType`. -/
inductive NodeType where
  | ErrorNode
  | TextNode
  | DocumentNode
  | ElementNode
  | CommentNode
  | DoctypeNode
  deriving DecidableEq, Repr

/-- An `html.Attribute` (namespace omitted). -/
structure Attribute where
  Key : String
  Val : String
  deriving DecidableEq, Repr

/-- An `html.Node`. The `FirstChild`/`NextSibling` chain is the list `kids` of the
addresses of the children, in order. -/
structure HtmlNode where
  typ : NodeType
  Data : String
  Attr : List Attribute
  kids : List Nat
  deriving DecidableEq, Repr

/-- The Go heap of `html.Node` values: `cell p` is the node at address `p`, and the
addresses below `next` are the ones already allocated. -/
structure NodeHeap where
  cell : Nat → HtmlNode
  next : Nat

/-- Overwrite the node at address `p`. -/
def NodeHeap.write (h : NodeHeap) (p : Nat) (n : HtmlNode) : NodeHeap :=
  { h with cell := fun q => if q = p then n else h.cell q }

/-- The nodes a parse produces, before they are placed in the heap: `cells` are the
new nodes, whose `kids` are indexes into `cells`, and `roots` are the indexes of the
top-level nodes. -/
structure Fragment where
  cells : List HtmlNode
  roots : List Nat
  deriving DecidableEq, Repr

/-- Move the child indexes of a fragment cell to heap addresses starting at `base`. -/
def relocate (base : Nat) (n : HtmlNode) : HtmlNode :=
  { n with kids := n.kids.map (fun k => base + k) }

/-- Store the cells `cs` at the consecutive addresses `p, p+1, ...`. -/
def storeCells (base : Nat) : (Nat → HtmlNode) → Nat → List HtmlNode → (Nat → HtmlNode)
  | cell, _, [] => cell
  | cell, p, c :: cs => storeCells base (fun q => if q = p then relocate base c else cell q) (p + 1) cs

/-- Allocate a fresh copy of a fragment (`cloneNodes`); returns the addresses of its
top-level nodes. -/
def NodeHeap.alloc (h : NodeHeap) (f : Fragment) : List Nat × NodeHeap :=
  (f.roots.map (fun r => h.next + r),
   { cell := storeCells h.next h.cell h.next f.cells, next := h.next + f.cells.length })

/-! ## `strings.TrimSpace` -/

/-- Go's `unicode.IsSpace`. -/
def isSpace (c : Char) : Bool :=
  let n := c.toNat
  n = 0x09 || n = 0x0A || n = 0x0B || n = 0x0C || n = 0x0D || n = 0x20 || n = 0x85 || n = 0xA0 ||
  n = 0x1680 || (0x2000 ≤ n && n ≤ 0x200A) || n = 0x2028 || n = 0x2029 || n = 0x202F ||
  n = 0x205F || n = 0x3000

/-- Go's `strings.TrimSpace`: drop leading and trailing white space. -/
def TrimSpace (s : String) : String :=
  String.mk ((s.data.dropWhile isSpace).reverse.dropWhile isSpace).reverse

/-! ## Collaborators outside the engine -/

/-- A compiled selector (`goquery.Matcher`): decides whether the node at an address
matches, given the heap. -/
abbrev Matcher := NodeHeap → Nat → Bool

/-- What `http.Client.Do` and reading the body can give for one request. -/
inductive HttpOutcome where
  | requestError
  | transportError
  | response (status : Nat) (body : Option String)
  deriving DecidableEq, Repr

/-! ## Scripts

The engine treats script text as opaque and hands it to `RunString`. What a script
does is given by the program the runtime compiles it to; the programs cover the part
of the language that reaches the bindings the engine installs. -/

/-- Script expressions. -/
inductive Expr where
  | str (s : String)
  | num (n : Int)
  | null
  | undefined
  | ident (name : String)
  | member (e : Expr) (name : String)
  | index (e : Expr) (i : Nat)
  | call0 (recv : Expr) (method : String)
  | call1 (recv : Expr) (method : String) (a : Expr)
  | call2 (recv : Expr) (method : String) (a b : Expr)
  deriving DecidableEq, Repr

/-- Script statements: an expression, `name = e` on a global, `obj.name = e`,
`throw e`, and `Object.freeze(globalThis)`. -/
inductive Stmt where
  | expr (e : Expr)
  | assign (name : String) (e : Expr)
  | assignMember (obj : Expr) (name : String) (e : Expr)
  | throw (e : Expr)
  | freezeGlobal
  deriving DecidableEq, Repr

/-- A compiled script. -/
abbrev Program := List Stmt

/-- The engine's collaborators whose code lies outside `js_engine.go`. -/
structure Host where
  /-- `Browser.ResolveStringUrl`; `none` is an error return. -/
  ResolveStringUrl : String → Option String
  /-- `Browser.userAgent`. -/
  userAgent : String
  /-- The network: the outcome of the `k`-th request of a run, for a URL and a
  `User-Agent` header. -/
  Do : Nat → String → String → HttpOutcome
  /-- `goquery`'s `compileMatcher`: a selector that does not compile gives a matcher
  that matches nothing, never an error. -/
  compileMatcher : String → Matcher
  /-- `html.ParseFragment` of a markup string in the context of a node. -/
  ParseFragment : String → HtmlNode → Fragment
  /-- `html.Render` of the node at an address; `none` is an error return. -/
  Render : NodeHeap → Nat → Option String
  /-- The runtime's parser and compiler; `none` is a syntax error. -/
  Compile : String → Option Program

/-! ## `goquery.Selection` -/

/-- The `Nodes` of a `goquery.Selection`: node addresses, in selection order. -/
abbrev Nodes := List Nat

/-- Models `getAttributePtr`: the first attribute of the node with the given key. -/
def getAttributePtr (attrName : String) (n : HtmlNode) : Option Attribute :=
  n.Attr.find? (fun a => a.Key = attrName)

/-- Models `Selection.Attr`: value of the attribute on the first node, `none` when the
selection is empty or the attribute absent (`exists = false`). -/
def Attr (h : NodeHeap) (s : Nodes) (attrName : String) : Option String :=
  match s with
  | [] => none
  | n :: _ => (getAttributePtr attrName (h.cell n)).map (fun a => a.Val)

/-- One step of `Selection.SetAttr`: overwrite the value of the first attribute with
that key, or append a new attribute. -/
def setAttrList (attrName val : String) : List Attribute → List Attribute
  | [] => [{ Key := attrName, Val := val }]
  | a :: as => if a.Key = attrName then { a with Val := val } :: as else a :: setAttrList attrName val as

/-- Models `Selection.SetAttr`: upsert the attribute on every node of the selection. -/
def SetAttr (h : NodeHeap) (s : Nodes) (attrName val : String) : NodeHeap :=
  s.foldl (fun h n => h.write n { h.cell n with Attr := setAttrList attrName val (h.cell n).Attr }) h

/-- The text of the subtree at `n`, as the closure `f` inside `Selection.Text` collects
it; `fuel` bounds the depth of the descent. -/
def nodeText (h : NodeHeap) : Nat → Nat → String
  | 0, _ => ""
  | fuel + 1, n =>
    (if (h.cell n).typ = NodeType.TextNode then (h.cell n).Data else "") ++
      String.join ((h.cell n).kids.map (nodeText h fuel))

/-- Models `Selection.Text`: the concatenated text of every node of the selection and its
descendants. No chain of allocated nodes is longer than `h.next`. -/
def Text (h : NodeHeap) (s : Nodes) : String :=
  String.join (s.map (nodeText h h.next))

/-- Models `Selection.Html`: the rendering of the children of the first node; `none` when a
child fails to render. -/
def Html (host : Host) (h : NodeHeap) (s : Nodes) : Option String :=
  match s with
  | [] => some ""
  | n :: _ =>
    (h.cell n).kids.foldl
      (fun acc c => acc.bind (fun buf => (host.Render h c).map (fun r => buf ++ r))) (some "")

/-- The second loop of `Selection.SetHtml` (`eachNodeHtml`): every element of the
selection gets a fresh copy of the parsed nodes appended. -/
def appendParsed (host : Host) (htmlStr : String) (h : NodeHeap) (n : Nat) : NodeHeap :=
  if (h.cell n).typ = NodeType.ElementNode then
    let r := h.alloc (host.ParseFragment htmlStr (h.cell n))
    r.2.write n { r.2.cell n with kids := (r.2.cell n).kids ++ r.1 }
  else h

/-- Models `Selection.SetHtml`: first every node of the selection loses its children, then
the parsed markup is appended to each. -/
def SetHtml (host : Host) (h : NodeHeap) (s : Nodes) (htmlStr : String) : NodeHeap :=
  let h1 := s.foldl (fun h n => h.write n { h.cell n with kids := [] }) h
  s.foldl (appendParsed host htmlStr) h1

/-- The matcher's `MatchAll`: the node itself when it matches, then the matches
among its descendants, in document (pre-)order. -/
def matchAll (m : Matcher) (h : NodeHeap) : Nat → Nat → List Nat
  | 0, _ => []
  | fuel + 1, n =>
    (if m h n then [n] else []) ++ ((h.cell n).kids.map (matchAll m h fuel)).flatten

/-- Models `appendWithoutDuplicates`. -/
def appendWithoutDuplicates (target nodes : List Nat) : List Nat :=
  nodes.foldl (fun acc n => if n ∈ acc then acc else acc ++ [n]) target

/-- Models `findWithMatcher`: for every node of the selection, the matches within its element
children's subtrees, without duplicates. -/
def findWithMatcher (h : NodeHeap) (nodes : Nodes) (m : Matcher) : Nodes :=
  nodes.foldl
    (fun result n =>
      appendWithoutDuplicates result
        ((((h.cell n).kids.filter (fun c => (h.cell c).typ = NodeType.ElementNode)).map
          (matchAll m h h.next)).flatten))
    []

/-- Models `Selection.Find` (and `Document.Find`, whose selection is the root node). -/
def Find (host : Host) (h : NodeHeap) (s : Nodes) (selector : String) : Nodes :=
  findWithMatcher h s (host.compileMatcher selector)

/-- Models `Selection.First`. -/
def First (s : Nodes) : Nodes := s.take 1

/-! ## The scripting runtime (`goja`) -/

/-- The Go closures that `setupDOM` and `elementToJSValue` hand to the runtime as
script functions, each with what it captures. -/
inductive Native where
  | getElementById
  | getElementsByTagName
  | querySelector
  | querySelectorAll
  | getAttribute (selection : Nodes)
  | setAttribute (selection : Nodes)
  deriving DecidableEq, Repr

/-- A script value (`goja.Value`). -/
inductive Value where
  | undefined
  | null
  | str (s : String)
  | num (n : Int)
  | obj (ref : Nat)
  | fn (f : Native)
  deriving DecidableEq, Repr

/-- The getter closure of `elementToJSValue`: `return elementObj.Get("innerHTML")`. -/
inductive Getter where
  | innerHTML (elementObj : Nat)
  deriving DecidableEq, Repr

/-- The setter closure of `elementToJSValue`:
`selection.SetHtml(call.Argument(0).String())`. -/
inductive Setter where
  | innerHTML (selection : Nodes)
  deriving DecidableEq, Repr

/-- A property slot of a script object: a stored value, or a getter/setter pair
(`DefineAccessorProperty`). -/
inductive Property where
  | data (v : Value)
  | accessor (getter : Getter) (setter : Setter)
  deriving DecidableEq, Repr

/-- A script object: named properties and, for an array, its elements. -/
structure JSObject where
  props : List (String × Property)
  items : Option (List Value)
  deriving DecidableEq, Repr

/-- Errors of the runtime, as `RunString` and `Set` return them. -/
inductive JSError where
  | SyntaxError
  | TypeError
  | ReferenceError
  | thrown (v : Value)
  deriving DecidableEq, Repr

/-- How a piece of script or a native call ends: with a value, with a script error,
or with the Go stack exhausted, which ends the process (`fatal`). -/
inductive Completion (α : Type) where
  | normal (v : α)
  | throw (e : JSError)
  | fatal
  deriving DecidableEq, Repr

/-- A `goja.Runtime`: the object heap, the properties of the global object, whether
the global object has been frozen, and (ghost) the sources `RunString` has been given,
oldest first. -/
structure Runtime where
  objs : Nat → JSObject
  nextObj : Nat
  globals : List (String × Value)
  frozen : Bool
  ran : List String

/-- Models `goja.New()`. -/
def Runtime.New : Runtime :=
  { objs := fun _ => { props := [], items := none }, nextObj := 0, globals := [],
    frozen := false, ran := [] }

/-- Insert or replace the entry of a key, keeping its position. -/
def upsert {α : Type} (k : String) (v : α) : List (String × α) → List (String × α)
  | [] => [(k, v)]
  | (k', v') :: rest => if k' = k then (k, v) :: rest else (k', v') :: upsert k v rest

/-- The entry of a key. -/
def lookup {α : Type} (k : String) : List (String × α) → Option α
  | [] => none
  | (k', v') :: rest => if k' = k then some v' else lookup k rest

/-- Models `Runtime.NewObject`. -/
def Runtime.NewObject (vm : Runtime) : Nat × Runtime :=
  (vm.nextObj,
   { vm with objs := fun r => if r = vm.nextObj then { props := [], items := none } else vm.objs r,
             nextObj := vm.nextObj + 1 })

/-- Models `Runtime.NewArray(items...)`: a new array holding exactly the given items. -/
def Runtime.NewArray (vm : Runtime) (items : List Value) : Nat × Runtime :=
  (vm.nextObj,
   { vm with objs := fun r => if r = vm.nextObj then { props := [], items := some items } else vm.objs r,
             nextObj := vm.nextObj + 1 })

/-- Replace the object at a reference. -/
def Runtime.store (vm : Runtime) (o : Nat) (x : JSObject) : Runtime :=
  { vm with objs := fun r => if r = o then x else vm.objs r }

/-- Models `Runtime.Set(name, value)`: assign a property of the global object; fails with a
`TypeError` when the global object is frozen. -/
def Runtime.Set (vm : Runtime) (name : String) (v : Value) : Runtime × Option JSError :=
  if vm.frozen then (vm, some JSError.TypeError)
  else ({ vm with globals := upsert name v vm.globals }, none)

/-- Models `Object.DefineAccessorProperty(name, getter, setter, ...)`: the slot becomes an
accessor, whatever it held. -/
def Runtime.DefineAccessorProperty (vm : Runtime) (o : Nat) (name : String) (g : Getter)
    (s : Setter) : Runtime :=
  vm.store o { vm.objs o with props := upsert name (Property.accessor g s) (vm.objs o).props }

/-- Write the element at index `i` of an array, growing it with `undefined` as needed. -/
def setItem (items : List Value) (i : Nat) (v : Value) : List Value :=
  if i < items.length then items.set i v
  else items ++ List.replicate (i - items.length) Value.undefined ++ [v]

/-- Models `Object.Set(fmt.Sprintf("%d", i), value)` on an array: a decimal index names the
element at that index. -/
def Runtime.SetIdx (vm : Runtime) (o : Nat) (i : Nat) (v : Value) : Runtime :=
  vm.store o { vm.objs o with items := some (setItem (((vm.objs o).items).getD []) i v) }

/-- Models `Value.String()`: the Go string of a script value. -/
def Value.String (vm : Runtime) : Value → String
  | Value.undefined => "undefined"
  | Value.null => "null"
  | Value.str s => s
  | Value.num n => toString n
  | Value.fn _ => "function () { [native code] }"
  | Value.obj o =>
    match (vm.objs o).items with
    | none => "[object Object]"
    | some xs =>
      ",".intercalate (xs.map (fun x =>
        match x with
        | Value.undefined => ""
        | Value.null => ""
        | Value.str s => s
        | Value.num n => toString n
        | Value.fn _ => "function () { [native code] }"
        | Value.obj _ => "[object Object]"))

/-- The `JSEngine` struct together with the memory its pointers lead into: `vm` is the
runtime `js.vm` points to, `dom` the address of the root node of the document `js.dom`
points to (`none` for the nil pointer of a new engine), and `heap` the heap that node
lives in; the field `browser` is the `Host`. -/
structure JSEngine where
  vm : Runtime
  dom : Option Nat
  heap : NodeHeap

/-- Models `NewJSEngine`: a new runtime, no document yet. -/
def NewJSEngine (heap : NodeHeap) : JSEngine :=
  { vm := Runtime.New, dom := none, heap := heap }

/-- Models `Object.Get(name)`: a stored value is returned as is; for an accessor the getter
is called, which takes one Go stack frame out of the `depth` that remain. -/
def Object.Get : Nat → Runtime → Nat → String → Completion Value
  | 0, vm, o, name =>
    match (vm.objs o).items, name with
    | some xs, "length" => Completion.normal (Value.num xs.length)
    | _, _ =>
      match lookup name (vm.objs o).props with
      | none => Completion.normal Value.undefined
      | some (Property.data v) => Completion.normal v
      | some (Property.accessor _ _) => Completion.fatal
  | depth + 1, vm, o, name =>
    match (vm.objs o).items, name with
    | some xs, "length" => Completion.normal (Value.num xs.length)
    | _, _ =>
      match lookup name (vm.objs o).props with
      | none => Completion.normal Value.undefined
      | some (Property.data v) => Completion.normal v
      | some (Property.accessor (Getter.innerHTML elementObj) _) =>
        Object.Get depth vm elementObj "innerHTML"

/-- Models `Object.Set(name, value)` and script assignment to a property: an accessor's
setter is called, otherwise the value is stored. The objects of this runtime are
extensible and their properties writable, so no error is returned. -/
def Object.Set (host : Host) (w : JSEngine) (o : Nat) (name : String) (v : Value) :
    JSEngine × Option JSError :=
  match lookup name (w.vm.objs o).props with
  | some (Property.accessor _ (Setter.innerHTML selection)) =>
    ({ w with heap := SetHtml host w.heap selection (v.String w.vm) }, none)
  | _ =>
    let x : JSObject := { w.vm.objs o with props := upsert name (Property.data v) (w.vm.objs o).props }
    ({ w with vm := w.vm.store o x }, none)

/-! ## `js_engine.go` -/

/-- Models `elementToJSValue`: the script object for a selection. -/
def elementToJSValue (host : Host) (w : JSEngine) (selection : Nodes) : Value × JSEngine :=
  let elementObj := w.vm.NewObject.1
  let w0 : JSEngine := { w with vm := w.vm.NewObject.2 }
  -- Get element ID
  let w1 : JSEngine :=
    match Attr w0.heap selection "id" with
    | some id => (Object.Set host w0 elementObj "id" (Value.str id)).1
    | none => w0
  -- Set innerHTML property, then add the accessor
  let w2 : JSEngine :=
    match Html host w1.heap selection with
    | some html =>
      let w' := (Object.Set host w1 elementObj "innerHTML" (Value.str html)).1
      let vm' := w'.vm.DefineAccessorProperty elementObj "innerHTML"
        (Getter.innerHTML elementObj) (Setter.innerHTML selection)
      { w' with vm := vm' }
    | none => w1
  -- Set innerText property
  let w3 := (Object.Set host w2 elementObj "innerText" (Value.str (Text w2.heap selection))).1
  -- Set getAttribute and setAttribute methods
  let w4 := (Object.Set host w3 elementObj "getAttribute" (Value.fn (Native.getAttribute selection))).1
  let w5 := (Object.Set host w4 elementObj "setAttribute" (Value.fn (Native.setAttribute selection))).1
  (Value.obj elementObj, w5)

/-- The body of the `Each` callback in `selectionToJSArray`, for the node at position `i`. -/
def selectionToJSArrayStep (host : Host) (arr : Nat) (w : JSEngine) (p : Nat × Nat) : JSEngine :=
  let r := elementToJSValue host w [p.2]
  { r.2 with vm := r.2.vm.SetIdx arr p.1 r.1 }

/-- Models `selectionToJSArray`: `NewArray(selection.Length())`, then one `Set` per node. -/
def selectionToJSArray (host : Host) (w : JSEngine) (selection : Nodes) : Value × JSEngine :=
  let arr := (w.vm.NewArray [Value.num selection.length]).1
  let w0 : JSEngine := { w with vm := (w.vm.NewArray [Value.num selection.length]).2 }
  (Value.obj arr, selection.enum.foldl (selectionToJSArrayStep host arr) w0)

/-- The Go string of the `i`-th argument of a call to a function that takes string
parameters; a missing argument is the zero value. -/
def argString (vm : Runtime) (args : List Value) (i : Nat) : String :=
  match args.get? i with
  | some v => v.String vm
  | none => ""

/-- The bodies of the closures installed by `setupDOM` and `elementToJSValue`. A call
on an engine without a document dereferences nil, which ends the process. -/
def callNative (host : Host) (w : JSEngine) (f : Native) (args : List Value) :
    JSEngine × Completion Value :=
  match f with
  | Native.getElementById =>
    match w.dom with
    | none => (w, Completion.fatal)
    | some doc =>
      let selection := Find host w.heap [doc] ("#" ++ argString w.vm args 0)
      if selection.length = 0 then (w, Completion.normal Value.null)
      else ((elementToJSValue host w selection).2,
            Completion.normal (elementToJSValue host w selection).1)
  | Native.getElementsByTagName =>
    match w.dom with
    | none => (w, Completion.fatal)
    | some doc =>
      let selection := Find host w.heap [doc] (argString w.vm args 0)
      ((selectionToJSArray host w selection).2,
       Completion.normal (selectionToJSArray host w selection).1)
  | Native.querySelector =>
    match w.dom with
    | none => (w, Completion.fatal)
    | some doc =>
      let selection := Find host w.heap [doc] (argString w.vm args 0)
      if selection.length = 0 then (w, Completion.normal Value.null)
      else ((elementToJSValue host w (First selection)).2,
            Completion.normal (elementToJSValue host w (First selection)).1)
  | Native.querySelectorAll =>
    match w.dom with
    | none => (w, Completion.fatal)
    | some doc =>
      let selection := Find host w.heap [doc] (argString w.vm args 0)
      ((selectionToJSArray host w selection).2,
       Completion.normal (selectionToJSArray host w selection).1)
  | Native.getAttribute selection =>
    match Attr w.heap selection (argString w.vm args 0) with
    | some val => (w, Completion.normal (Value.str val))
    | none => (w, Completion.normal Value.null)
  | Native.setAttribute selection =>
    ({ w with heap := SetAttr w.heap selection (argString w.vm args 0) (argString w.vm args 1) },
     Completion.normal Value.undefined)

/-- The Go idiom `if err != nil { return err }`: stop with the error of a step, or go
on from the state it left. -/
def orReturn (r : JSEngine × Option JSError) (next : JSEngine → JSEngine × Option JSError) :
    JSEngine × Option JSError :=
  match r.2 with
  | some err => (r.1, some err)
  | none => next r.1

/-- Models `js.vm.Set(name, value)`. -/
def JSEngine.Set (w : JSEngine) (name : String) (v : Value) : JSEngine × Option JSError :=
  ({ w with vm := (w.vm.Set name v).1 }, (w.vm.Set name v).2)

/-- Models `setupDOM`: build `window` and `document` and install them as globals. -/
def setupDOM (host : Host) (w : JSEngine) : JSEngine × Option JSError :=
  -- Create a basic window object
  let windowObj := w.vm.NewObject.1
  let wa : JSEngine := { w with vm := w.vm.NewObject.2 }
  -- Create a document object
  let documentObj := wa.vm.NewObject.1
  let wb : JSEngine := { wa with vm := wa.vm.NewObject.2 }
  -- Setup document methods
  orReturn (Object.Set host wb documentObj "getElementById" (Value.fn Native.getElementById)) fun w1 =>
  orReturn (Object.Set host w1 documentObj "getElementsByTagName" (Value.fn Native.getElementsByTagName)) fun w2 =>
  orReturn (Object.Set host w2 documentObj "querySelector" (Value.fn Native.querySelector)) fun w3 =>
  orReturn (Object.Set host w3 documentObj "querySelectorAll" (Value.fn Native.querySelectorAll)) fun w4 =>
  -- Add document object to window
  orReturn (Object.Set host w4 windowObj "document" (Value.obj documentObj)) fun w5 =>
  -- Add window object to the global scope
  orReturn (w5.Set "window" (Value.obj windowObj)) fun w6 =>
  -- Make document available in the global scope directly
  orReturn (w6.Set "document" (Value.obj documentObj)) fun w7 =>
  (w7, none)

/-- Why `fetchExternalScript` returned an error. -/
inductive FetchError where
  | request
  | transport
  | status (code : Nat)
  | read
  deriving DecidableEq, Repr

/-- Models `fetchExternalScript`: GET the URL with the browser's user agent; only a 200
response whose body can be read gives the script text. `k` counts the requests made
before this one. -/
def fetchExternalScript (host : Host) (k : Nat) (url : String) : Except FetchError String :=
  match host.Do k url host.userAgent with
  | HttpOutcome.requestError => Except.error FetchError.request
  | HttpOutcome.transportError => Except.error FetchError.transport
  | HttpOutcome.response status body =>
    if status ≠ 200 then Except.error (FetchError.status status)
    else
      match body with
      | none => Except.error FetchError.read
      | some b => Except.ok b

/-! ## Running a script -/

/-- Read `v.name`: a `TypeError` on `undefined` and `null`, `Object.Get` on an object. -/
def getMember (depth : Nat) (vm : Runtime) (v : Value) (name : String) : Completion Value :=
  match v with
  | Value.undefined => Completion.throw JSError.TypeError
  | Value.null => Completion.throw JSError.TypeError
  | Value.obj o => Object.Get depth vm o name
  | _ => Completion.normal Value.undefined

/-- Read `v[i]`: the element of an array, the property named by the index otherwise. -/
def getIndex (depth : Nat) (vm : Runtime) (v : Value) (i : Nat) : Completion Value :=
  match v with
  | Value.undefined => Completion.throw JSError.TypeError
  | Value.null => Completion.throw JSError.TypeError
  | Value.obj o =>
    match (vm.objs o).items with
    | some xs => Completion.normal (xs.getD i Value.undefined)
    | none => Object.Get depth vm o (toString i)
  | _ => Completion.normal Value.undefined

/-- Call a value: a `TypeError` unless it is a function. -/
def callValue (host : Host) (w : JSEngine) (f : Value) (args : List Value) :
    JSEngine × Completion Value :=
  match f with
  | Value.fn n => callNative host w n args
  | _ => (w, Completion.throw JSError.TypeError)

/-- The script call `recv.method(args...)` once the arguments are evaluated: read the
method from the receiver and call it. -/
def callMethod (host : Host) (depth : Nat) (w : JSEngine) (recv : Value) (method : String)
    (args : List Value) : JSEngine × Completion Value :=
  match getMember depth w.vm recv method with
  | Completion.normal f => callValue host w f args
  | Completion.throw e => (w, Completion.throw e)
  | Completion.fatal => (w, Completion.fatal)

/-- Evaluate an expression: receiver, then the method, then the arguments left to
right, then the call. -/
def eval (host : Host) (depth : Nat) : JSEngine → Expr → JSEngine × Completion Value
  | w, Expr.str s => (w, Completion.normal (Value.str s))
  | w, Expr.num n => (w, Completion.normal (Value.num n))
  | w, Expr.null => (w, Completion.normal Value.null)
  | w, Expr.undefined => (w, Completion.normal Value.undefined)
  | w, Expr.ident name =>
    match lookup name w.vm.globals with
    | some v => (w, Completion.normal v)
    | none => (w, Completion.throw JSError.ReferenceError)
  | w, Expr.member e name =>
    match eval host depth w e with
    | (w1, Completion.normal v) => (w1, getMember depth w1.vm v name)
    | r => r
  | w, Expr.index e i =>
    match eval host depth w e with
    | (w1, Completion.normal v) => (w1, getIndex depth w1.vm v i)
    | r => r
  | w, Expr.call0 recv method =>
    match eval host depth w recv with
    | (w1, Completion.normal v) =>
      match getMember depth w1.vm v method with
      | Completion.normal f => callValue host w1 f []
      | Completion.throw e => (w1, Completion.throw e)
      | Completion.fatal => (w1, Completion.fatal)
    | r => r
  | w, Expr.call1 recv method a =>
    match eval host depth w recv with
    | (w1, Completion.normal v) =>
      match getMember depth w1.vm v method with
      | Completion.normal f =>
        match eval host depth w1 a with
        | (w2, Completion.normal x) => callValue host w2 f [x]
        | r => r
      | Completion.throw e => (w1, Completion.throw e)
      | Completion.fatal => (w1, Completion.fatal)
    | r => r
  | w, Expr.call2 recv method a b =>
    match eval host depth w recv with
    | (w1, Completion.normal v) =>
      match getMember depth w1.vm v method with
      | Completion.normal f =>
        match eval host depth w1 a with
        | (w2, Completion.normal x) =>
          match eval host depth w2 b with
          | (w3, Completion.normal y) => callValue host w3 f [x, y]
          | r => r
        | r => r
      | Completion.throw e => (w1, Completion.throw e)
      | Completion.fatal => (w1, Completion.fatal)
    | r => r

/-- Assign `target.name = v`: a `TypeError` on `undefined` and `null`, `Object.Set` on
an object, no effect on other values. -/
def putMember (host : Host) (w : JSEngine) (target : Value) (name : String) (v : Value) :
    JSEngine × Completion Unit :=
  match target with
  | Value.undefined => (w, Completion.throw JSError.TypeError)
  | Value.null => (w, Completion.throw JSError.TypeError)
  | Value.obj o => ((Object.Set host w o name v).1, Completion.normal ())
  | _ => (w, Completion.normal ())

/-- Execute one statement. An assignment to a global of a frozen global object has no
effect. -/
def execStmt (host : Host) (depth : Nat) (w : JSEngine) : Stmt → JSEngine × Completion Unit
  | Stmt.expr e =>
    match eval host depth w e with
    | (w1, Completion.normal _) => (w1, Completion.normal ())
    | (w1, Completion.throw err) => (w1, Completion.throw err)
    | (w1, Completion.fatal) => (w1, Completion.fatal)
  | Stmt.assign name e =>
    match eval host depth w e with
    | (w1, Completion.normal v) => ({ w1 with vm := (w1.vm.Set name v).1 }, Completion.normal ())
    | (w1, Completion.throw err) => (w1, Completion.throw err)
    | (w1, Completion.fatal) => (w1, Completion.fatal)
  | Stmt.assignMember obj name e =>
    match eval host depth w obj with
    | (w1, Completion.normal target) =>
      match eval host depth w1 e with
      | (w2, Completion.normal v) => putMember host w2 target name v
      | (w2, Completion.throw err) => (w2, Completion.throw err)
      | (w2, Completion.fatal) => (w2, Completion.fatal)
    | (w1, Completion.throw err) => (w1, Completion.throw err)
    | (w1, Completion.fatal) => (w1, Completion.fatal)
  | Stmt.throw e =>
    match eval host depth w e with
    | (w1, Completion.normal v) => (w1, Completion.throw (JSError.thrown v))
    | (w1, Completion.throw err) => (w1, Completion.throw err)
    | (w1, Completion.fatal) => (w1, Completion.fatal)
  | Stmt.freezeGlobal =>
    ({ w with vm := { w.vm with frozen := true } }, Completion.normal ())

/-- Execute the statements in order, stopping at the first that does not complete
normally. -/
def execProgram (host : Host) (depth : Nat) : JSEngine → Program → JSEngine × Completion Unit
  | w, [] => (w, Completion.normal ())
  | w, s :: rest =>
    match execStmt host depth w s with
    | (w1, Completion.normal _) => execProgram host depth w1 rest
    | r => r

/-- Models `Runtime.RunString`: compile the source and run it. A source that does not
compile is a `SyntaxError` and nothing runs. The ghost log records the source. -/
def RunString (host : Host) (depth : Nat) (w : JSEngine) (src : String) :
    JSEngine × Completion Unit :=
  let w0 : JSEngine := { w with vm := { w.vm with ran := w.vm.ran ++ [src] } }
  match host.Compile src with
  | none => (w0, Completion.throw JSError.SyntaxError)
  | some prog => execProgram host depth w0 prog

/-! ## `Execute` -/

/-- The lists of the collection phase. -/
structure Collected where
  inlineScripts : List String
  externalScripts : List String
  deriving DecidableEq, Repr

/-- The callback of `doc.Find("script").Each` in `Execute`, for the script element at
address `n`. -/
def collectStep (host : Host) (h : NodeHeap) (c : Collected) (n : Nat) : Collected :=
  match Attr h [n] "src" with
  | some src =>
    -- External script
    match host.ResolveStringUrl src with
    | some resolvedSrc => { c with externalScripts := c.externalScripts ++ [resolvedSrc] }
    | none => c
  | none =>
    -- Inline script
    if TrimSpace (Text h [n]) ≠ "" then { c with inlineScripts := c.inlineScripts ++ [Text h [n]] }
    else c

/-- The collection phase of `Execute`. -/
def collectScripts (host : Host) (h : NodeHeap) (doc : Nat) : Collected :=
  (Find host h [doc] "script").foldl (collectStep host h)
    { inlineScripts := [], externalScripts := [] }

/-- The loop "fetch and execute external scripts"; `k` counts the fetches made so far.
The flag is `false` when a script ended the process. -/
def runExternalScripts (host : Host) (depth : Nat) : JSEngine → Nat → List String → JSEngine × Bool
  | w, _, [] => (w, true)
  | w, k, src :: rest =>
    match fetchExternalScript host k src with
    | Except.error _ => runExternalScripts host depth w (k + 1) rest
    | Except.ok code =>
      match RunString host depth w code with
      | (w1, Completion.fatal) => (w1, false)
      | (w1, _) => runExternalScripts host depth w1 (k + 1) rest

/-- The loop "execute inline scripts". -/
def runInlineScripts (host : Host) (depth : Nat) : JSEngine → List String → JSEngine × Bool
  | w, [] => (w, true)
  | w, script :: rest =>
    match RunString host depth w script with
    | (w1, Completion.fatal) => (w1, false)
    | (w1, _) => runInlineScripts host depth w1 rest

/-- How a call of `Execute` ends: it returns its `error` value, or a script exhausts
the Go stack and the process ends without a return. -/
inductive ExecResult where
  | returned (err : Option JSError)
  | fatal
  deriving DecidableEq, Repr

/-- Models `JSEngine.Execute(doc)`: collect the scripts, set up the DOM, run the external
scripts that can be fetched, then the inline scripts. The diagnostics the source prints
with `fmt.Printf` are left out. -/
def Execute (host : Host) (depth : Nat) (w : JSEngine) (doc : Nat) : JSEngine × ExecResult :=
  let w0 : JSEngine := { w with dom := some doc }
  let c := collectScripts host w0.heap doc
  match setupDOM host w0 with
  | (w1, some err) => (w1, ExecResult.returned (some err))
  | (w1, none) =>
    match runExternalScripts host depth w1 0 c.externalScripts with
    | (w2, false) => (w2, ExecResult.fatal)
    | (w2, true) =>
      match runInlineScripts host depth w2 c.inlineScripts with
      | (w3, false) => (w3, ExecResult.fatal)
      | (w3, true) => (w3, ExecResult.returned none)

/-! ## Spec-side descriptions of the collection phase -/

/-- The entry a script element contributes to the external list: the resolved URL of
its `src`, when it has one and the URL resolves. -/
def externalEntry (host : Host) (h : NodeHeap) (n : Nat) : Option String :=
  match Attr h [n] "src" with
  | some src => host.ResolveStringUrl src
  | none => none

/-- The entry a script element contributes to the inline list: its text, when it has
no `src` and the text is not blank. -/
def inlineEntry (h : NodeHeap) (n : Nat) : Option String :=
  match Attr h [n] "src" with
  | some _ => none
  | none => if TrimSpace (Text h [n]) ≠ "" then some (Text h [n]) else none

/-! ## Spec-side description of the run phase -/

/-- The body a fetch gives, `none` when it fails. -/
def fetchedBody (host : Host) (p : Nat × String) : Option String :=
  match fetchExternalScript host p.1 p.2 with
  | Except.ok code => some code
  | Except.error _ => none

/-- The bodies of the external scripts whose fetch succeeds, in the order of the list
of URLs; the fetches are numbered from `k`. -/
def fetchedBodies (host : Host) (k : Nat) (urls : List String) : List String :=
  (urls.enumFrom k).filterMap (fetchedBody host)

/-- The sequence of script bodies a document is to have run: the fetched bodies of its
external scripts, then its inline bodies. -/
def expectedBodies (host : Host) (h : NodeHeap) (doc : Nat) : List String :=
  fetchedBodies host 0 (collectScripts host h doc).externalScripts ++
    (collectScripts host h doc).inlineScripts

/-! ## An example host and example documents

The closed examples below run the engine on concrete documents. Their host resolves
every `src` against `http://page.test/`, serves three script URLs, compiles the script
sources that occur in the examples, and reads the selector forms the examples use. -/

/-- The characters of a plain name in a selector. -/
def isNameChar (c : Char) : Bool := c.isAlphanum || c = '-' || c = '_'

/-- The value of the `id` attribute of a node. -/
def idOf (n : HtmlNode) : Option String := (getAttributePtr "id" n).map (fun a => a.Val)

/-- The matcher of the id selector `#name`. -/
def idMatcher (name : String) : Matcher :=
  fun h n => (h.cell n).typ = NodeType.ElementNode && idOf (h.cell n) = some name

/-- The matcher of the type selector `tag`. -/
def tagMatcher (tag : String) : Matcher :=
  fun h n => (h.cell n).typ = NodeType.ElementNode && (h.cell n).Data = tag

/-- Split a list of characters at its dots. -/
def splitDots : List Char → List (List Char)
  | [] => [[]]
  | c :: cs =>
    if c = '.' then [] :: splitDots cs
    else
      match splitDots cs with
      | [] => [[c]]
      | part :: parts => (c :: part) :: parts

/-- The words of a list of characters: its maximal runs without white space; `cur`
holds the word being read, last character first. -/
def words (cur : List Char) : List Char → List (List Char)
  | [] => if cur = [] then [] else [cur.reverse]
  | c :: cs =>
    if isSpace c then
      if cur = [] then words [] cs else cur.reverse :: words [] cs
    else words (c :: cur) cs

/-- Whether the node's `class` attribute lists the class. -/
def hasClass (n : HtmlNode) (cls : String) : Bool :=
  match getAttributePtr "class" n with
  | some a => (words [] a.Val.data).contains cls.data
  | none => false

/-- The matcher of the class selector `.cls`. -/
def classMatcher (cls : String) : Matcher :=
  fun h n => (h.cell n).typ = NodeType.ElementNode && hasClass (h.cell n) cls

/-- The example selector compiler, for the selector forms the examples use: `#name`
selects by id, `#name.c1.c2` by id and classes (a dot ends the name of the id), and
`name` by tag. Any other string is given the matcher that matches nothing. -/
def exampleMatcher (selector : String) : Matcher :=
  match selector.data with
  | '#' :: rest =>
    if rest ≠ [] ∧ rest.all isNameChar then idMatcher (String.mk rest)
    else
      match splitDots rest with
      | name :: classes =>
        if name ≠ [] ∧ name.all isNameChar ∧
            classes.all (fun c => c ≠ [] ∧ c.all isNameChar) then
          fun h n => idMatcher (String.mk name) h n &&
            classes.all (fun c => classMatcher (String.mk c) h n)
        else fun _ _ => false
      | [] => fun _ _ => false
  | cs => if cs ≠ [] ∧ cs.all isNameChar then tagMatcher selector else fun _ _ => false

/-- A text node. -/
def textNode (s : String) : HtmlNode :=
  { typ := NodeType.TextNode, Data := s, Attr := [], kids := [] }

/-- An element node. -/
def element (tag : String) (attrs : List Attribute) (kids : List Nat) : HtmlNode :=
  { typ := NodeType.ElementNode, Data := tag, Attr := attrs, kids := kids }

/-- The example fragment parser, for markup that is plain text (no tag, no character
reference): one text node, or nothing for the empty string. -/
def exampleParse (markup : String) (_context : HtmlNode) : Fragment :=
  if markup = "" then { cells := [], roots := [] }
  else { cells := [textNode markup], roots := [0] }

/-- The example renderer: the text of a text node, an element as its tag around its
children. -/
def exampleRender (h : NodeHeap) : Nat → Nat → String
  | 0, _ => ""
  | fuel + 1, n =>
    match (h.cell n).typ with
    | NodeType.TextNode => (h.cell n).Data
    | NodeType.ElementNode =>
      "<" ++ (h.cell n).Data ++ ">" ++ String.join ((h.cell n).kids.map (exampleRender h fuel)) ++
        "</" ++ (h.cell n).Data ++ ">"
    | _ => ""

/-- Script source: set the content of `#result`. -/
def srcSetResult : String := "document.getElementById(\"result\").innerHTML = \"After JS\";"

/-- Script source: set the content of the element whose id is `a.b`. -/
def srcSetDotted : String := "document.getElementById(\"a.b\").innerHTML = \"After JS\";"

/-- Script source: a thrown exception. -/
def srcThrow : String := "throw \"boom\";"

/-- Script source that does not parse. -/
def srcSyntaxError : String := "var = ;"

/-- Script source: define a global. -/
def srcDefineGlobal : String := "leak = \"secret\";"

/-- Script source: show a global in `#out`. -/
def srcShowGlobal : String := "document.getElementById(\"out\").innerHTML = leak;"

/-- Script source: another global. -/
def srcMark : String := "mark = \"c\";"

/-- Script source: write, then read `innerText` through the same object. -/
def srcReadInnerText : String :=
  "e = document.getElementById(\"result\"); e.innerHTML = \"After JS\"; seen = e.innerText;"

/-- Script source: write, then read `innerHTML` through the same object. -/
def srcReadInnerHTML : String :=
  "e = document.getElementById(\"result\"); e.innerHTML = \"After JS\"; back = e.innerHTML;"

/-- Script source: write `innerHTML` and an attribute through `getElementById`. -/
def srcSetA : String :=
  "document.getElementById(\"a\").innerHTML = \"z\"; document.getElementById(\"a\").setAttribute(\"class\", \"on\");"

/-- Script source: query a selector that matches nothing and keep what comes back. -/
def srcQueryNone : String :=
  "found = document.querySelectorAll(\"p\"); count = found.length; entry = found[0];"

/-- Script source: freeze the global object. -/
def srcFreeze : String := "Object.freeze(globalThis);"

/-- The expression `document.getElementById(id)`. -/
def byId (id : String) : Expr :=
  Expr.call1 (Expr.ident "document") "getElementById" (Expr.str id)

/-- The example script compiler: the programs of the example sources; every other
source is a syntax error. -/
def exampleCompile (src : String) : Option Program :=
  if src = srcSetResult then
    some [Stmt.assignMember (byId "result") "innerHTML" (Expr.str "After JS")]
  else if src = srcSetDotted then
    some [Stmt.assignMember (byId "a.b") "innerHTML" (Expr.str "After JS")]
  else if src = srcThrow then some [Stmt.throw (Expr.str "boom")]
  else if src = srcDefineGlobal then some [Stmt.assign "leak" (Expr.str "secret")]
  else if src = srcShowGlobal then
    some [Stmt.assignMember (byId "out") "innerHTML" (Expr.ident "leak")]
  else if src = srcMark then some [Stmt.assign "mark" (Expr.str "c")]
  else if src = srcReadInnerText then
    some [Stmt.assign "e" (byId "result"),
          Stmt.assignMember (Expr.ident "e") "innerHTML" (Expr.str "After JS"),
          Stmt.assign "seen" (Expr.member (Expr.ident "e") "innerText")]
  else if src = srcReadInnerHTML then
    some [Stmt.assign "e" (byId "result"),
          Stmt.assignMember (Expr.ident "e") "innerHTML" (Expr.str "After JS"),
          Stmt.assign "back" (Expr.member (Expr.ident "e") "innerHTML")]
  else if src = srcSetA then
    some [Stmt.assignMember (byId "a") "innerHTML" (Expr.str "z"),
          Stmt.expr (Expr.call2 (byId "a") "setAttribute" (Expr.str "class") (Expr.str "on"))]
  else if src = srcQueryNone then
    some [Stmt.assign "found"
            (Expr.call1 (Expr.ident "document") "querySelectorAll" (Expr.str "p")),
          Stmt.assign "count" (Expr.member (Expr.ident "found") "length"),
          Stmt.assign "entry" (Expr.index (Expr.ident "found") 0)]
  else if src = srcFreeze then some [Stmt.freezeGlobal]
  else none

/-- The example network: `a.js` and `c.js` are served, `b.js` is a 404, every other
request fails in transport. -/
def exampleDo (_k : Nat) (url : String) (_userAgent : String) : HttpOutcome :=
  if url = "http://page.test/a.js" then HttpOutcome.response 200 (some srcSetResult)
  else if url = "http://page.test/b.js" then HttpOutcome.response 404 (some "not found")
  else if url = "http://page.test/c.js" then HttpOutcome.response 200 (some srcMark)
  else HttpOutcome.transportError

/-- The example host. -/
def exampleHost : Host where
  ResolveStringUrl := fun src => some ("http://page.test/" ++ src)
  userAgent := "surf-test"
  Do := exampleDo
  compileMatcher := exampleMatcher
  ParseFragment := exampleParse
  Render := fun h n => some (exampleRender h h.next n)
  Compile := exampleCompile

/-- A heap holding the given nodes at the addresses `0, 1, ...`. -/
def heapOf (cells : List HtmlNode) : NodeHeap :=
  { cell := fun p => cells.getD p (textNode ""), next := cells.length }

/-- A document node. -/
def documentNode (kids : List Nat) : HtmlNode :=
  { typ := NodeType.DocumentNode, Data := "", Attr := [], kids := kids }

/-- A page `<div id="result">Before JS</div><script>…</script>` with the given script
text. -/
def pageWith (script : String) : NodeHeap :=
  heapOf [documentNode [1], element "body" [] [2, 4],
    element "div" [⟨"id", "result"⟩] [3], textNode "Before JS",
    element "script" [⟨"type", "text/javascript"⟩] [5], textNode script]

/-- The page of `TestJavaScript`: the script sets the content of `#result`. -/
def pageInline : NodeHeap := pageWith srcSetResult

/-- The page of `TestJavaScriptExternalScript`:
`<div id="result">Before JS</div><script src="a.js"></script>`. -/
def pageExternal : NodeHeap :=
  heapOf [documentNode [1], element "body" [] [2, 4],
    element "div" [⟨"id", "result"⟩] [3], textNode "Before JS",
    element "script" [⟨"src", "a.js"⟩] []]

/-- A page whose element has the id `a.b`:
`<div id="a.b">Before JS</div><script>…getElementById("a.b").innerHTML = "After JS";</script>`. -/
def pageDottedId : NodeHeap :=
  heapOf [documentNode [1], element "body" [] [2, 4],
    element "div" [⟨"id", "a.b"⟩] [3], textNode "Before JS",
    element "script" [] [5], textNode srcSetDotted]

/-- A page with two inline scripts, the first of which reads `innerHTML`:
`<div id="result">Before JS</div><script>e = …; e.innerHTML = "After JS"; back = e.innerHTML;</script><script>mark = "c";</script>`. -/
def pageReadThenMark : NodeHeap :=
  heapOf [documentNode [1], element "body" [] [2, 4, 6],
    element "div" [⟨"id", "result"⟩] [3], textNode "Before JS",
    element "script" [] [5], textNode srcReadInnerHTML,
    element "script" [] [7], textNode srcMark]

/-- A page with an external script and two inline scripts, the first inline one reading
`innerHTML`:
`<div id="result">Before JS</div><script>e = …; back = e.innerHTML;</script><script src="a.js"></script><script>mark = "c";</script>`. -/
def pageReadMixed : NodeHeap :=
  heapOf [documentNode [1], element "body" [] [2, 4, 6, 7],
    element "div" [⟨"id", "result"⟩] [3], textNode "Before JS",
    element "script" [] [5], textNode srcReadInnerHTML,
    element "script" [⟨"src", "a.js"⟩] [],
    element "script" [] [8], textNode srcMark]

/-- A page with two elements of the same id:
`<div id="a">x</div><div id="a">y</div><script>…</script>`. -/
def pageTwoIds : NodeHeap :=
  heapOf [documentNode [1], element "body" [] [2, 4, 6],
    element "div" [⟨"id", "a"⟩] [3], textNode "x",
    element "div" [⟨"id", "a"⟩] [5], textNode "y",
    element "script" [] [7], textNode srcSetA]

/-- Two documents in one heap, as two page loads give: the document at address 0 is
`<script>first</script>`, the one at address 4 is
`<div id="out">empty</div><script>second</script>`. -/
def twoPages (first second : String) : NodeHeap :=
  heapOf [documentNode [1], element "body" [] [2], element "script" [] [3], textNode first,
    documentNode [5], element "body" [] [6, 8],
    element "div" [⟨"id", "out"⟩] [7], textNode "empty",
    element "script" [] [9], textNode second]

/-- A page whose scripts are, in document order: an inline script that throws, `a.js`,
`b.js` (a 404), a blank inline script, an inline script that does not parse, `c.js`,
and an inline script; the script that has `src="a.js"` also has text. -/
def pageMixed : NodeHeap :=
  heapOf [documentNode [1],
    element "body" [] [2, 4, 6, 8, 9, 11, 13, 14],
    element "div" [⟨"id", "result"⟩] [3], textNode "Before JS",
    element "script" [] [5], textNode srcThrow,
    element "script" [⟨"src", "a.js"⟩] [7], textNode srcDefineGlobal,
    element "script" [⟨"src", "b.js"⟩] [],
    element "script" [] [10], textNode "  \n\t ",
    element "script" [] [12], textNode srcSyntaxError,
    element "script" [⟨"src", "c.js"⟩] [],
    element "script" [] [15], textNode srcDefineGlobal]

/-! ## Spec-side notions for the content of an element -/

/-- The elements of the document with the given id, in document order. -/
def elementsWithId (h : NodeHeap) (doc : Nat) (id : String) : Nodes :=
  findWithMatcher h [doc] (idMatcher id)

/-- The children of the node at `n` are a copy of the nodes of the fragment `f`: the
copy lies at the allocated addresses from `base` on, and the node's children are the
fragment's top-level nodes. -/
def HoldsFragment (h : NodeHeap) (n : Nat) (f : Fragment) : Prop :=
  ∃ base, base + f.cells.length ≤ h.next ∧
    (h.cell n).kids = f.roots.map (fun r => base + r) ∧
    ∀ i, i < f.cells.length → h.cell (base + i) = relocate base (f.cells.getD i (textNode ""))

/-- The object at reference `o` is the projection of the selection `sel` taken when the
tree was `heap`: it is what `elementToJSValue` stores in a new object. -/
def IsProjection (host : Host) (heap : NodeHeap) (vm : Runtime) (o : Nat) (sel : Nodes) : Prop :=
  (vm.objs o).items = none ∧
  lookup "getAttribute" (vm.objs o).props
    = some (Property.data (Value.fn (Native.getAttribute sel))) ∧
  lookup "setAttribute" (vm.objs o).props
    = some (Property.data (Value.fn (Native.setAttribute sel))) ∧
  lookup "innerText" (vm.objs o).props = some (Property.data (Value.str (Text heap sel))) ∧
  lookup "innerHTML" (vm.objs o).props
    = (Html host heap sel).map (fun _ => Property.accessor (Getter.innerHTML o) (Setter.innerHTML sel)) ∧
  lookup "id" (vm.objs o).props = (Attr heap sel "id").map (fun id => Property.data (Value.str id))

/-! # Theorems -/

/-! ## The collection phase -/

theorem collect_foldl (host : Host) (h : NodeHeap) (l : List Nat) (c : Collected) :
    l.foldl (collectStep host h) c =
      { inlineScripts := c.inlineScripts ++ l.filterMap (inlineEntry h),
        externalScripts := c.externalScripts ++ l.filterMap (externalEntry host h) } := by
  induction l generalizing c with
  | nil => simp
  | cons n l ih =>
    rw [List.foldl_cons, ih]
    unfold collectStep inlineEntry externalEntry
    cases hs : Attr h [n] "src" with
    | none =>
      by_cases hb : TrimSpace (Text h [n]) = ""
      · simp [List.filterMap_cons, hs, hb]
      · simp [List.filterMap_cons, hs, hb]
    | some src =>
      cases hr : host.ResolveStringUrl src with
      | none => simp [List.filterMap_cons, hs, hr]
      | some u => simp [List.filterMap_cons, hs, hr]

theorem filterMap_sources {α β : Type} (f : α → Option β) (l : List α) :
    ∃ sub : List α, sub.Sublist l ∧ List.Forall₂ (fun a b => f a = some b) sub (l.filterMap f) := by
  induction l with
  | nil => exact ⟨[], List.Sublist.slnil, by simp⟩
  | cons a l ih =>
    obtain ⟨sub, hsub, hall⟩ := ih
    cases hf : f a with
    | none =>
      refine ⟨sub, List.Sublist.cons a hsub, ?_⟩
      rw [List.filterMap_cons_none hf]
      exact hall
    | some b =>
      refine ⟨a :: sub, List.Sublist.cons₂ a hsub, ?_⟩
      rw [List.filterMap_cons_some hf]
      exact List.Forall₂.cons hf hall

/-- C3. The collection phase of `Execute` makes one forward pass over the script
elements in document order (`Find "script"`): the external list holds, in that order,
the resolved URL of every element that has a `src` whose URL resolves; the inline list
holds, in that order, the text of every element without `src` whose text is not blank
after trimming. An element with `src` never gives an inline entry, and each list comes
from a subsequence of the script elements. -/
theorem collectScripts_partition (host : Host) (h : NodeHeap) (doc : Nat) :
    (collectScripts host h doc).externalScripts
        = (Find host h [doc] "script").filterMap (externalEntry host h) ∧
    (collectScripts host h doc).inlineScripts
        = (Find host h [doc] "script").filterMap (inlineEntry h) ∧
    (∀ n, (Attr h [n] "src").isSome → inlineEntry h n = none) ∧
    (∀ n, Attr h [n] "src" = none →
        externalEntry host h n = none ∧
        (inlineEntry h n = some (Text h [n]) ↔ TrimSpace (Text h [n]) ≠ "") ∧
        (inlineEntry h n = none ↔ TrimSpace (Text h [n]) = "")) ∧
    (∃ ext : List Nat, ext.Sublist (Find host h [doc] "script") ∧
        List.Forall₂ (fun n u => externalEntry host h n = some u) ext
          (collectScripts host h doc).externalScripts) ∧
    (∃ inl : List Nat, inl.Sublist (Find host h [doc] "script") ∧
        List.Forall₂ (fun n s => inlineEntry h n = some s) inl
          (collectScripts host h doc).inlineScripts) := by
  have hc := collect_foldl host h (Find host h [doc] "script")
    { inlineScripts := [], externalScripts := [] }
  have he : (collectScripts host h doc).externalScripts
      = (Find host h [doc] "script").filterMap (externalEntry host h) := by
    unfold collectScripts; rw [hc]; simp
  have hi : (collectScripts host h doc).inlineScripts
      = (Find host h [doc] "script").filterMap (inlineEntry h) := by
    unfold collectScripts; rw [hc]; simp
  refine ⟨he, hi, ?_, ?_, ?_, ?_⟩
  · intro n hn
    unfold inlineEntry
    cases hs : Attr h [n] "src" with
    | none => rw [hs] at hn; simp at hn
    | some src => rfl
  · intro n hn
    unfold inlineEntry externalEntry
    rw [hn]
    by_cases hb : TrimSpace (Text h [n]) = ""
    · simp [hb]
    · simp [hb]
  · rw [he]; exact filterMap_sources _ _
  · rw [hi]; exact filterMap_sources _ _

/-! ## The ghost log only grows in `RunString` -/

theorem Object_Set_ran (host : Host) (w : JSEngine) (o : Nat) (name : String) (v : Value) :
    (Object.Set host w o name v).1.vm.ran = w.vm.ran := by
  unfold Object.Set
  split <;> simp [Runtime.store]

theorem Object_Set_err (host : Host) (w : JSEngine) (o : Nat) (name : String) (v : Value) :
    (Object.Set host w o name v).2 = none := by
  unfold Object.Set
  split <;> simp

theorem elementToJSValue_ran (host : Host) (w : JSEngine) (sel : Nodes) :
    (elementToJSValue host w sel).2.vm.ran = w.vm.ran := by
  unfold elementToJSValue
  simp only [Object_Set_ran]
  split <;> split <;> simp [Object_Set_ran, Runtime.DefineAccessorProperty, Runtime.store, Runtime.NewObject]

theorem selectionToJSArrayStep_ran (host : Host) (arr : Nat) (w : JSEngine) (p : Nat × Nat) :
    (selectionToJSArrayStep host arr w p).vm.ran = w.vm.ran := by
  simp [selectionToJSArrayStep, Runtime.SetIdx, Runtime.store, elementToJSValue_ran]

theorem foldl_ran {α : Type} (f : JSEngine → α → JSEngine)
    (hf : ∀ w a, (f w a).vm.ran = w.vm.ran) (l : List α) (w : JSEngine) :
    (l.foldl f w).vm.ran = w.vm.ran := by
  induction l generalizing w with
  | nil => rfl
  | cons a l ih => rw [List.foldl_cons, ih, hf]

theorem selectionToJSArray_ran (host : Host) (w : JSEngine) (sel : Nodes) :
    (selectionToJSArray host w sel).2.vm.ran = w.vm.ran := by
  unfold selectionToJSArray
  simp only []
  rw [foldl_ran _ (selectionToJSArrayStep_ran host _)]
  simp [Runtime.NewArray]

theorem callNative_ran (host : Host) (w : JSEngine) (f : Native) (args : List Value) :
    (callNative host w f args).1.vm.ran = w.vm.ran := by
  unfold callNative
  cases f <;> simp only [] <;> (repeat' split) <;>
    simp [elementToJSValue_ran, selectionToJSArray_ran]

theorem callValue_ran (host : Host) (w : JSEngine) (f : Value) (args : List Value) :
    (callValue host w f args).1.vm.ran = w.vm.ran := by
  unfold callValue
  split
  · exact callNative_ran _ _ _ _
  · rfl

theorem eval_ran (host : Host) (depth : Nat) (e : Expr) (w : JSEngine) :
    (eval host depth w e).1.vm.ran = w.vm.ran := by
  induction e generalizing w with
  | str s => simp [eval]
  | num n => simp [eval]
  | null => simp [eval]
  | undefined => simp [eval]
  | ident name => simp only [eval]; split <;> rfl
  | member e name ih =>
    simp only [eval]
    split
    · next w1 v h => have := ih w; rw [h] at this; exact this
    · exact ih w
  | index e i ih =>
    simp only [eval]
    split
    · next w1 v h => have := ih w; rw [h] at this; exact this
    · exact ih w
  | call0 recv m ih =>
    simp only [eval]
    split
    · next w1 v h =>
      have h1 := ih w; rw [h] at h1
      split
      · rw [callValue_ran]; exact h1
      · exact h1
      · exact h1
    · exact ih w
  | call1 recv m a ih iha =>
    simp only [eval]
    split
    · next w1 v h =>
      have h1 := ih w; rw [h] at h1
      split
      · split
        · next w2 x h2 =>
          have h3 := iha w1; rw [h2] at h3
          rw [callValue_ran]; exact h3.trans h1
        · exact (iha w1).trans h1
      · exact h1
      · exact h1
    · exact ih w
  | call2 recv m a b ih iha ihb =>
    simp only [eval]
    split
    · next w1 v h =>
      have h1 := ih w; rw [h] at h1
      split
      · split
        · next w2 x h2 =>
          have h3 := iha w1; rw [h2] at h3
          split
          · next w3 y h4 =>
            have h5 := ihb w2; rw [h4] at h5
            rw [callValue_ran]; exact h5.trans (h3.trans h1)
          · exact (ihb w2).trans (h3.trans h1)
        · exact (iha w1).trans h1
      · exact h1
      · exact h1
    · exact ih w

theorem putMember_ran (host : Host) (w : JSEngine) (t : Value) (name : String) (v : Value) :
    (putMember host w t name v).1.vm.ran = w.vm.ran := by
  unfold putMember
  split <;> simp [Object_Set_ran]

theorem execStmt_ran (host : Host) (depth : Nat) (w : JSEngine) (s : Stmt) :
    (execStmt host depth w s).1.vm.ran = w.vm.ran := by
  cases s with
  | expr e =>
    simp only [execStmt]
    have h := eval_ran host depth e w
    split <;> next h1 => rw [h1] at h; exact h
  | assign name e =>
    simp only [execStmt]
    have h := eval_ran host depth e w
    split <;> next h1 =>
      rw [h1] at h
      first
        | exact h
        | (simp only [Runtime.Set]; split <;> simpa using h)
  | assignMember obj name e =>
    simp only [execStmt]
    have h := eval_ran host depth obj w
    split
    · next w1 t h1 =>
      rw [h1] at h
      have h2 := eval_ran host depth e w1
      split <;> next h3 =>
        rw [h3] at h2
        first
          | exact h2.trans h
          | (rw [putMember_ran]; exact h2.trans h)
    · next h1 => rw [h1] at h; exact h
    · next h1 => rw [h1] at h; exact h
  | throw e =>
    simp only [execStmt]
    have h := eval_ran host depth e w
    split <;> next h1 => rw [h1] at h; exact h
  | freezeGlobal => simp [execStmt]

theorem execProgram_ran (host : Host) (depth : Nat) (p : Program) (w : JSEngine) :
    (execProgram host depth w p).1.vm.ran = w.vm.ran := by
  induction p generalizing w with
  | nil => rfl
  | cons s rest ih =>
    simp only [execProgram]
    have h := execStmt_ran host depth w s
    split
    · next w1 u h1 => rw [h1] at h; rw [ih]; exact h
    · exact h

theorem RunString_ran (host : Host) (depth : Nat) (w : JSEngine) (src : String) :
    (RunString host depth w src).1.vm.ran = w.vm.ran ++ [src] := by
  unfold RunString
  simp only []
  split
  · rfl
  · rw [execProgram_ran]

theorem orReturn_none {r : JSEngine × Option JSError} (h : r.2 = none)
    (next : JSEngine → JSEngine × Option JSError) : orReturn r next = next r.1 := by
  unfold orReturn; rw [h]

theorem orReturn_Object_Set (host : Host) (w : JSEngine) (o : Nat) (name : String) (v : Value)
    (next : JSEngine → JSEngine × Option JSError) :
    orReturn (Object.Set host w o name v) next = next (Object.Set host w o name v).1 :=
  orReturn_none (Object_Set_err host w o name v) next

theorem JSEngine_Set_ran (w : JSEngine) (name : String) (v : Value) :
    (w.Set name v).1.vm.ran = w.vm.ran := by
  unfold JSEngine.Set Runtime.Set; split <;> rfl

theorem orReturn_ran {r : JSEngine × Option JSError} {next : JSEngine → JSEngine × Option JSError}
    {l : List String} (hr : r.1.vm.ran = l) (hn : ∀ w, w.vm.ran = l → (next w).1.vm.ran = l) :
    (orReturn r next).1.vm.ran = l := by
  unfold orReturn
  split
  · exact hr
  · exact hn _ hr

theorem setupDOM_ran (host : Host) (w : JSEngine) :
    (setupDOM host w).1.vm.ran = w.vm.ran := by
  unfold setupDOM
  simp only [orReturn_Object_Set]
  apply orReturn_ran
  · rw [JSEngine_Set_ran]; simp [Object_Set_ran, Runtime.NewObject]
  · intro w6 h6
    apply orReturn_ran
    · rw [JSEngine_Set_ran]; exact h6
    · intro w7 h7; exact h7

/-! ## The run phase -/

theorem runExternalScripts_eq (host : Host) (depth : Nat) (urls : List String) (w : JSEngine)
    (k : Nat) :
    runExternalScripts host depth w k urls
      = runInlineScripts host depth w (fetchedBodies host k urls) := by
  induction urls generalizing w k with
  | nil => simp [runExternalScripts, fetchedBodies, runInlineScripts]
  | cons url rest ih =>
    unfold runExternalScripts
    cases hf : fetchExternalScript host k url with
    | error e =>
      simp only []
      rw [ih]
      simp [fetchedBodies, List.enumFrom_cons, fetchedBody, hf]
    | ok code =>
      simp only []
      have hb : fetchedBodies host k (url :: rest) = code :: fetchedBodies host (k + 1) rest := by
        simp [fetchedBodies, List.enumFrom_cons, fetchedBody, hf]
      rw [hb]
      conv => rhs; unfold runInlineScripts
      split <;> next h1 => simp only [h1, ih]

theorem runInlineScripts_cons (host : Host) (depth : Nat) (s : String) (rest : List String)
    (w : JSEngine) :
    runInlineScripts host depth w (s :: rest) =
      if (RunString host depth w s).2 = Completion.fatal
      then ((RunString host depth w s).1, false)
      else runInlineScripts host depth (RunString host depth w s).1 rest := by
  rw [runInlineScripts]
  split
  · next w1 h1 => simp [h1]
  · next w1 c hc h1 => rw [h1]; simp only []; rw [if_neg (fun h => hc h)]

theorem runInlineScripts_append (host : Host) (depth : Nat) (a b : List String) (w : JSEngine) :
    runInlineScripts host depth w (a ++ b) =
      if (runInlineScripts host depth w a).2 = true
      then runInlineScripts host depth (runInlineScripts host depth w a).1 b
      else runInlineScripts host depth w a := by
  induction a generalizing w with
  | nil => simp [runInlineScripts]
  | cons s rest ih =>
    simp only [List.cons_append, runInlineScripts_cons]
    split
    · simp
    · rw [ih]

/-- What the script loop leaves: every body ran, in order, or the process ended inside
the `k`-th body after exactly the bodies up to it were started. -/
theorem runInlineScripts_spec (host : Host) (depth : Nat) (l : List String) (w : JSEngine) :
    ((runInlineScripts host depth w l).2 = true ∧
        (runInlineScripts host depth w l).1.vm.ran = w.vm.ran ++ l) ∨
    ((runInlineScripts host depth w l).2 = false ∧
        ∃ k, k < l.length ∧
          (runInlineScripts host depth w l).1.vm.ran = w.vm.ran ++ l.take (k + 1) ∧
          ∃ w' src, src ∈ l ∧ (RunString host depth w' src).2 = Completion.fatal) := by
  induction l generalizing w with
  | nil => left; simp [runInlineScripts]
  | cons s rest ih =>
    unfold runInlineScripts
    have hr := RunString_ran host depth w s
    split
    · next w1 h1 =>
      right
      rw [h1] at hr
      refine ⟨rfl, 0, by simp, by simpa using hr, w, s, by simp, by rw [h1]⟩
    · next w1 c hc h1 =>
      rw [h1] at hr
      simp only [] at hr
      rcases ih w1 with ⟨h2, h3⟩ | ⟨h2, k, hk, h3, w', src, hsrc, hf⟩
      · left
        exact ⟨h2, by rw [h3, hr]; simp⟩
      · right
        refine ⟨h2, k + 1, by simp [hk], ?_, w', src, by simp [hsrc], hf⟩
        rw [h3, hr]; simp

theorem Execute_setup_err (host : Host) (depth : Nat) (w : JSEngine) (doc : Nat) (err : JSError)
    (h : (setupDOM host { w with dom := some doc }).2 = some err) :
    Execute host depth w doc
      = ((setupDOM host { w with dom := some doc }).1, ExecResult.returned (some err)) := by
  unfold Execute
  simp only []
  split
  · next w1 e h1 => rw [h1] at h; simp at h; rw [h1, h]
  · next w1 h1 => rw [h1] at h; simp at h

theorem Execute_setup_ok (host : Host) (depth : Nat) (w : JSEngine) (doc : Nat)
    (h : (setupDOM host { w with dom := some doc }).2 = none) :
    Execute host depth w doc
      = ((runInlineScripts host depth (setupDOM host { w with dom := some doc }).1
            (expectedBodies host w.heap doc)).1,
         if (runInlineScripts host depth (setupDOM host { w with dom := some doc }).1
            (expectedBodies host w.heap doc)).2 = true
         then ExecResult.returned none else ExecResult.fatal) := by
  unfold Execute expectedBodies
  simp only []
  split
  · next w1 e h1 => rw [h1] at h; simp at h
  · next w1 h1 =>
    rw [h1, runInlineScripts_append, runExternalScripts_eq]
    simp only []
    cases h2 : runInlineScripts host depth w1
        (fetchedBodies host 0 (collectScripts host w.heap doc).externalScripts) with
    | mk w2 b2 =>
      cases b2 with
      | false => simp
      | true =>
        simp only [if_true]
        cases h3 : runInlineScripts host depth w2 (collectScripts host w.heap doc).inlineScripts with
        | mk w3 b3 => cases b3 <;> simp

/-- The order of the runs on every document, as far as a call gets. When `setupDOM`
succeeds, the sources `Execute` hands to `RunString` are, in this order, the bodies of
the external scripts whose fetch succeeded, in the order of the collected URL list, and
then the collected inline bodies: all of them when the call returns, and an initial
segment of that same sequence when a script exhausts the Go stack and ends the process. -/
theorem Execute_runs_externals_then_inlines (host : Host) (depth : Nat) (w : JSEngine) (doc : Nat)
    (hsetup : (setupDOM host { w with dom := some doc }).2 = none) :
    ((Execute host depth w doc).2 = ExecResult.returned none ∧
      (Execute host depth w doc).1.vm.ran
        = w.vm.ran ++
          ((((collectScripts host w.heap doc).externalScripts.enumFrom 0).filterMap
              (fetchedBody host)) ++
            (collectScripts host w.heap doc).inlineScripts)) ∨
    ((Execute host depth w doc).2 = ExecResult.fatal ∧
      ∃ k, k < (expectedBodies host w.heap doc).length ∧
        (Execute host depth w doc).1.vm.ran
          = w.vm.ran ++ (expectedBodies host w.heap doc).take (k + 1)) := by
  rw [Execute_setup_ok host depth w doc hsetup]
  have hs := setupDOM_ran host { w with dom := some doc }
  rcases runInlineScripts_spec host depth (expectedBodies host w.heap doc)
      (setupDOM host { w with dom := some doc }).1 with ⟨h1, h2⟩ | ⟨h1, k, hk, h2, _⟩
  · left
    refine ⟨by simp [h1], ?_⟩
    simp only []
    rw [h2, hs]
    rfl
  · right
    refine ⟨by simp [h1], k, hk, ?_⟩
    simp only []
    rw [h2, hs]

/-- The ways a call ends, on every document. `Execute` returns a non-nil error exactly
when `setupDOM` fails, and with that same error; in that case no source has been handed
to `RunString`. When `setupDOM` succeeds the call never returns an error: it returns nil
after every expected body has been run, or it does not return at all because some
script run exhausted the Go stack. A script that ends with a runtime error (a syntax
error or a thrown value) does not stop the loop: the remaining inline and external
scripts are run from the state it left. -/
theorem Execute_error_iff_setupDOM_fails (host : Host) (depth : Nat) (w : JSEngine) (doc : Nat) :
    (∀ err, (Execute host depth w doc).2 = ExecResult.returned (some err) ↔
        (setupDOM host { w with dom := some doc }).2 = some err) ∧
    (∀ err, (setupDOM host { w with dom := some doc }).2 = some err →
        (Execute host depth w doc).1.vm.ran = w.vm.ran) ∧
    ((setupDOM host { w with dom := some doc }).2 = none →
        ((Execute host depth w doc).2 = ExecResult.returned none ∧
          (Execute host depth w doc).1.vm.ran = w.vm.ran ++ expectedBodies host w.heap doc) ∨
        ((Execute host depth w doc).2 = ExecResult.fatal ∧
          ∃ w' src, src ∈ expectedBodies host w.heap doc ∧
            (RunString host depth w' src).2 = Completion.fatal)) ∧
    (∀ w' s rest e, (RunString host depth w' s).2 = Completion.throw e →
        runInlineScripts host depth w' (s :: rest)
          = runInlineScripts host depth (RunString host depth w' s).1 rest) ∧
    (∀ w' k url rest code e, fetchExternalScript host k url = Except.ok code →
        (RunString host depth w' code).2 = Completion.throw e →
        runExternalScripts host depth w' k (url :: rest)
          = runExternalScripts host depth (RunString host depth w' code).1 (k + 1) rest) := by
  have hs := setupDOM_ran host { w with dom := some doc }
  refine ⟨?_, ?_, ?_, ?_, ?_⟩
  · intro err
    cases hsd : (setupDOM host { w with dom := some doc }).2 with
    | some e =>
      rw [Execute_setup_err host depth w doc e hsd]
      simp
    | none =>
      rw [Execute_setup_ok host depth w doc hsd]
      simp only []
      split <;> simp
  · intro err hsd
    rw [Execute_setup_err host depth w doc err hsd]
    exact hs
  · intro hsd
    rw [Execute_setup_ok host depth w doc hsd]
    rcases runInlineScripts_spec host depth (expectedBodies host w.heap doc)
        (setupDOM host { w with dom := some doc }).1 with ⟨h1, h2⟩ | ⟨h1, k, hk, h2, hf⟩
    · left
      refine ⟨by simp [h1], ?_⟩
      simp only []
      rw [h2, hs]
    · right
      exact ⟨by simp [h1], hf⟩
  · intro w' s rest e he
    rw [runInlineScripts_cons, he]
    simp
  · intro w' k url rest code e hf he
    rw [runExternalScripts, hf]
    simp only []
    split
    · next w1 h1 => rw [h1] at he; simp at he
    · next w1 c hc h1 => rw [h1]

/-- An instance on the mixed page: `setupDOM` succeeds on a new engine, and the sources
run are the two fetched bodies (`a.js`, `c.js`; `b.js` is a 404) followed by the three
non-blank inline bodies, although an inline script comes first in the document, one
script throws and one does not parse. -/
theorem Execute_runs_externals_then_inlines_witness :
    (setupDOM exampleHost { NewJSEngine pageMixed with dom := some 0 }).2 = none ∧
    (Execute exampleHost 8 (NewJSEngine pageMixed) 0).1.vm.ran
      = [srcSetResult, srcMark, srcThrow, srcSyntaxError, srcDefineGlobal] :=
  ⟨by decide!, by
    rcases Execute_runs_externals_then_inlines exampleHost 8 (NewJSEngine pageMixed) 0
        (by decide!) with ⟨_, h⟩ | ⟨hf, _⟩
    · rw [h]; decide!
    · exact absurd hf (by decide!)⟩

/-! ## Projected element objects -/

theorem lookup_upsert_same {α : Type} (k : String) (v : α) (l : List (String × α)) :
    lookup k (upsert k v l) = some v := by
  induction l with
  | nil => simp [upsert, lookup]
  | cons p l ih =>
    obtain ⟨k', v'⟩ := p
    by_cases h : k' = k
    · simp [upsert, lookup, h]
    · simp [upsert, lookup, h, ih]

theorem lookup_upsert_ne {α : Type} (k k' : String) (v : α) (l : List (String × α))
    (h : k' ≠ k) : lookup k (upsert k' v l) = lookup k l := by
  induction l with
  | nil => simp [upsert, lookup, h]
  | cons p l ih =>
    obtain ⟨k'', v''⟩ := p
    by_cases h1 : k'' = k'
    · subst h1
      simp [upsert, lookup, h]
    · by_cases h2 : k'' = k
      · have h3 : ¬ k = k' := fun e => h e.symm
        simp [upsert, lookup, h2, h3]
      · simp [upsert, lookup, h1, h2, ih]

theorem Object_Set_dom (host : Host) (w : JSEngine) (o : Nat) (name : String) (v : Value) :
    (Object.Set host w o name v).1.dom = w.dom := by
  unfold Object.Set
  split <;> rfl

theorem Object_Set_nextObj (host : Host) (w : JSEngine) (o : Nat) (name : String) (v : Value) :
    (Object.Set host w o name v).1.vm.nextObj = w.vm.nextObj := by
  unfold Object.Set
  split <;> rfl

theorem Object_Set_items (host : Host) (w : JSEngine) (o o' : Nat) (name : String) (v : Value) :
    ((Object.Set host w o name v).1.vm.objs o').items = (w.vm.objs o').items := by
  unfold Object.Set
  split
  · rfl
  · by_cases h : o' = o
    · subst h; simp [Runtime.store]
    · simp [Runtime.store, h]

theorem Object_Set_lookup_other (host : Host) (w : JSEngine) (o o' : Nat) (name k : String)
    (v : Value) (h : name ≠ k) :
    lookup k ((Object.Set host w o name v).1.vm.objs o').props = lookup k (w.vm.objs o').props := by
  unfold Object.Set
  split
  · rfl
  · by_cases h' : o' = o
    · subst h'; simp [Runtime.store, lookup_upsert_ne _ _ _ _ h]
    · simp [Runtime.store, h']

theorem Object_Set_objs_other (host : Host) (w : JSEngine) (o o' : Nat) (name : String)
    (v : Value) (h : o' ≠ o) :
    (Object.Set host w o name v).1.vm.objs o' = w.vm.objs o' := by
  unfold Object.Set
  split
  · rfl
  · simp [Runtime.store, h]

theorem Object_Set_lookup_new (host : Host) (w : JSEngine) (o : Nat) (name : String)
    (v : Value) (h : lookup name (w.vm.objs o).props = none) :
    lookup name ((Object.Set host w o name v).1.vm.objs o).props = some (Property.data v) := by
  simp [Object.Set, h, Runtime.store, lookup_upsert_same]

theorem Object_Set_heap_new (host : Host) (w : JSEngine) (o : Nat) (name : String)
    (v : Value) (h : lookup name (w.vm.objs o).props = none) :
    (Object.Set host w o name v).1.heap = w.heap := by
  simp [Object.Set, h]

/-- What `elementToJSValue` builds: a new object at the next free reference, holding
the methods and the text captured from the selection, and the `innerHTML` accessor when
the rendering succeeded; nothing else changes. -/
theorem elementToJSValue_spec (host : Host) (w : JSEngine) (sel : Nodes) :
    (elementToJSValue host w sel).1 = Value.obj w.vm.nextObj ∧
    (elementToJSValue host w sel).2.heap = w.heap ∧
    (elementToJSValue host w sel).2.dom = w.dom ∧
    (elementToJSValue host w sel).2.vm.globals = w.vm.globals ∧
    (elementToJSValue host w sel).2.vm.frozen = w.vm.frozen ∧
    (elementToJSValue host w sel).2.vm.nextObj = w.vm.nextObj + 1 ∧
    (∀ r, r ≠ w.vm.nextObj → (elementToJSValue host w sel).2.vm.objs r = w.vm.objs r) ∧
    ((elementToJSValue host w sel).2.vm.objs w.vm.nextObj).items = none ∧
    lookup "getAttribute" ((elementToJSValue host w sel).2.vm.objs w.vm.nextObj).props
      = some (Property.data (Value.fn (Native.getAttribute sel))) ∧
    lookup "setAttribute" ((elementToJSValue host w sel).2.vm.objs w.vm.nextObj).props
      = some (Property.data (Value.fn (Native.setAttribute sel))) ∧
    lookup "innerText" ((elementToJSValue host w sel).2.vm.objs w.vm.nextObj).props
      = some (Property.data (Value.str (Text w.heap sel))) ∧
    lookup "innerHTML" ((elementToJSValue host w sel).2.vm.objs w.vm.nextObj).props
      = (Html host w.heap sel).map
          (fun _ => Property.accessor (Getter.innerHTML w.vm.nextObj) (Setter.innerHTML sel)) ∧
    lookup "id" ((elementToJSValue host w sel).2.vm.objs w.vm.nextObj).props
      = (Attr w.heap sel "id").map (fun id => Property.data (Value.str id)) := by
  unfold elementToJSValue
  cases hid : Attr w.heap sel "id" <;> cases hh : Html host w.heap sel <;>
    simp [Object.Set, Runtime.NewObject, Runtime.store, Runtime.DefineAccessorProperty, hid, hh,
      lookup, upsert] <;>
    intro r hr <;> simp [hr]

theorem Object_Get_data (depth : Nat) (vm : Runtime) (o : Nat) (name : String) (v : Value)
    (hitems : (vm.objs o).items = none)
    (h : lookup name (vm.objs o).props = some (Property.data v)) :
    Object.Get depth vm o name = Completion.normal v := by
  cases depth <;> simp [Object.Get, hitems, h]

theorem find_setAttrList (name val : String) (l : List Attribute) :
    (setAttrList name val l).find? (fun a => a.Key = name) = some { Key := name, Val := val } := by
  induction l with
  | nil => simp [setAttrList]
  | cons a l ih =>
    by_cases h : a.Key = name
    · simp [setAttrList, h]
    · simp [setAttrList, h, ih]

/-- Every step of `SetAttr` keeps "the node at `p` has the attribute with this value". -/
theorem SetAttr_keeps (name val : String) (p : Nat) (s : Nodes) (h : NodeHeap)
    (hp : getAttributePtr name (h.cell p) = some { Key := name, Val := val }) :
    getAttributePtr name ((SetAttr h s name val).cell p) = some { Key := name, Val := val } := by
  induction s generalizing h with
  | nil => exact hp
  | cons n s ih =>
    unfold SetAttr
    rw [List.foldl_cons]
    apply ih
    by_cases hn : p = n
    · subst hn
      simp [NodeHeap.write, getAttributePtr, find_setAttrList]
    · simpa [NodeHeap.write, hn] using hp

theorem Attr_SetAttr (h : NodeHeap) (s : Nodes) (name val : String) (hs : s ≠ []) :
    Attr (SetAttr h s name val) s name = some val := by
  cases s with
  | nil => exact absurd rfl hs
  | cons n s =>
    have h1 : getAttributePtr name ((SetAttr h (n :: s) name val).cell n)
        = some { Key := name, Val := val } := by
      unfold SetAttr
      rw [List.foldl_cons]
      apply SetAttr_keeps
      simp [NodeHeap.write, getAttributePtr, find_setAttrList]
    simp [Attr, h1]

theorem callMethod_setAttribute (host : Host) (depth : Nat) (w : JSEngine) (sel : Nodes)
    (name val : String) :
    callMethod host depth (elementToJSValue host w sel).2 (elementToJSValue host w sel).1
        "setAttribute" [Value.str name, Value.str val]
      = ({ (elementToJSValue host w sel).2 with heap := SetAttr w.heap sel name val },
         Completion.normal Value.undefined) := by
  obtain ⟨h1, h2, _, _, _, _, _, h8, _, h10, _⟩ := elementToJSValue_spec host w sel
  unfold callMethod
  rw [h1]
  simp only [getMember]
  rw [Object_Get_data depth _ _ _ _ h8 h10]
  simp [callValue, callNative, argString, Value.String, h2]

theorem callMethod_getAttribute (host : Host) (depth : Nat) (w : JSEngine) (sel : Nodes)
    (name : String) (heap : NodeHeap) :
    callMethod host depth { (elementToJSValue host w sel).2 with heap := heap }
        (elementToJSValue host w sel).1 "getAttribute" [Value.str name]
      = ({ (elementToJSValue host w sel).2 with heap := heap },
         match Attr heap sel name with
         | some val => Completion.normal (Value.str val)
         | none => Completion.normal Value.null) := by
  obtain ⟨h1, h2, _, _, _, _, _, h8, h9, _⟩ := elementToJSValue_spec host w sel
  unfold callMethod
  rw [h1]
  simp only [getMember]
  rw [Object_Get_data depth _ _ _ _ h8 h9]
  simp only [callValue, callNative, argString, Value.String, List.get?]
  generalize Attr heap sel name = a
  cases a <;> rfl

/-- The script call `recv.method("a", "b")` is `callMethod` on the value of `recv`. -/
theorem eval_call2_str (host : Host) (depth : Nat) (w : JSEngine) (recv : Expr)
    (method a b : String) :
    eval host depth w (Expr.call2 recv method (Expr.str a) (Expr.str b))
      = match eval host depth w recv with
        | (w1, Completion.normal v) => callMethod host depth w1 v method [Value.str a, Value.str b]
        | r => r := by
  simp only [eval, callMethod]

/-- The script call `recv.method("a")` is `callMethod` on the value of `recv`. -/
theorem eval_call1_str (host : Host) (depth : Nat) (w : JSEngine) (recv : Expr)
    (method a : String) :
    eval host depth w (Expr.call1 recv method (Expr.str a))
      = match eval host depth w recv with
        | (w1, Completion.normal v) => callMethod host depth w1 v method [Value.str a]
        | r => r := by
  simp only [eval, callMethod]

/-- C10. Attribute upsert round trip: for the object `elementToJSValue` builds for a
non-empty selection, any attribute name (it is not validated) and any value (the empty
string included), after `e.setAttribute(name, val)` the call `e.getAttribute(name)`
returns the string `val`, not null, whether or not the attribute was there before; and
`e.getAttribute(name)` returns null when the node has no attribute of that name. -/
theorem setAttribute_getAttribute_round_trip (host : Host) (depth : Nat) (w : JSEngine)
    (sel : Nodes) (name val : String) (hsel : sel ≠ []) :
    (callMethod host depth
        (callMethod host depth (elementToJSValue host w sel).2 (elementToJSValue host w sel).1
          "setAttribute" [Value.str name, Value.str val]).1
        (elementToJSValue host w sel).1 "getAttribute" [Value.str name]).2
      = Completion.normal (Value.str val) ∧
    (Attr w.heap sel name = none →
      (callMethod host depth (elementToJSValue host w sel).2 (elementToJSValue host w sel).1
        "getAttribute" [Value.str name]).2 = Completion.normal Value.null) := by
  constructor
  · rw [callMethod_setAttribute, callMethod_getAttribute, Attr_SetAttr _ _ _ _ hsel]
  · intro habs
    have h := callMethod_getAttribute host depth w sel name (elementToJSValue host w sel).2.heap
    have h2 := (elementToJSValue_spec host w sel).2.1
    simp only [h2] at h
    have e : ({ (elementToJSValue host w sel).2 with heap := w.heap } : JSEngine)
        = (elementToJSValue host w sel).2 := by
      rw [← h2]
    rw [e] at h
    rw [h, habs]


/-- Witness for C10: setting `class` to the empty string on `#result` and reading it
back gives the empty string, not null. -/
theorem setAttribute_getAttribute_round_trip_witness :
    ([2] : Nodes) ≠ [] ∧
    (callMethod exampleHost 8
        (callMethod exampleHost 8 (elementToJSValue exampleHost (NewJSEngine pageInline) [2]).2
          (elementToJSValue exampleHost (NewJSEngine pageInline) [2]).1
          "setAttribute" [Value.str "class", Value.str ""]).1
        (elementToJSValue exampleHost (NewJSEngine pageInline) [2]).1
        "getAttribute" [Value.str "class"]).2
      = Completion.normal (Value.str "") :=
  ⟨by decide, (setAttribute_getAttribute_round_trip exampleHost 8 (NewJSEngine pageInline) [2]
      "class" "" (by decide)).1⟩

/-! ## Reading through a projected element object -/

/-- The getter installed for `innerHTML` reads `innerHTML` of the same object, so the
read calls it again: no amount of Go stack lets it return. -/
theorem Object_Get_innerHTML_fatal (depth : Nat) (vm : Runtime) (o : Nat) (s : Setter)
    (hitems : (vm.objs o).items = none)
    (h : lookup "innerHTML" (vm.objs o).props = some (Property.accessor (Getter.innerHTML o) s)) :
    Object.Get depth vm o "innerHTML" = Completion.fatal := by
  induction depth with
  | zero => simp [Object.Get, hitems, h]
  | succ d ih => simp [Object.Get, hitems, h, ih]

theorem putMember_innerHTML_accessor (host : Host) (w : JSEngine) (o : Nat) (g : Getter)
    (sel : Nodes) (v : Value)
    (h : lookup "innerHTML" (w.vm.objs o).props = some (Property.accessor g (Setter.innerHTML sel))) :
    putMember host w (Value.obj o) "innerHTML" v
      = ({ w with heap := SetHtml host w.heap sel (v.String w.vm) }, Completion.normal ()) := by
  simp [putMember, Object.Set, h]

theorem putMember_innerHTML_plain (host : Host) (w : JSEngine) (o : Nat) (v : Value)
    (h : lookup "innerHTML" (w.vm.objs o).props = none) :
    putMember host w (Value.obj o) "innerHTML" v
      = (JSEngine.mk (w.vm.store o
            (JSObject.mk (upsert "innerHTML" (Property.data v) (w.vm.objs o).props)
              (w.vm.objs o).items)) w.dom w.heap,
         Completion.normal ()) := by
  simp [putMember, Object.Set, h]

/-- C6 (what the code does, against the claim). For the object `elementToJSValue`
builds for a selection whose content renders, reading `e.innerHTML` never yields a
value, whatever Go stack is left: the getter is `elementObj.Get("innerHTML")`, which
invokes the getter again. This holds right after the object is made and equally after
the assignment `e.innerHTML = V`. -/
theorem innerHTML_read_never_returns (host : Host) (depth : Nat) (w : JSEngine) (sel : Nodes)
    (V : String) (hrender : (Html host w.heap sel).isSome) :
    getMember depth (elementToJSValue host w sel).2.vm (elementToJSValue host w sel).1 "innerHTML"
      = Completion.fatal ∧
    getMember depth
        (putMember host (elementToJSValue host w sel).2 (elementToJSValue host w sel).1
          "innerHTML" (Value.str V)).1.vm
        (elementToJSValue host w sel).1 "innerHTML"
      = Completion.fatal := by
  obtain ⟨h1, _, _, _, _, _, _, h8, _, _, _, h12, _⟩ := elementToJSValue_spec host w sel
  obtain ⟨html, hh⟩ := Option.isSome_iff_exists.mp hrender
  rw [hh] at h12
  simp only [Option.map] at h12
  rw [h1]
  constructor
  · exact Object_Get_innerHTML_fatal depth _ _ _ h8 h12
  · rw [putMember_innerHTML_accessor host _ _ _ _ _ h12]
    exact Object_Get_innerHTML_fatal depth _ _ _ h8 h12

/-- A write of `innerHTML` through one projected object leaves the stored properties of
every other object as they were. -/
theorem putMember_innerHTML_objs_other (host : Host) (w : JSEngine) (o o' : Nat) (v : Value)
    (h : o' ≠ o) :
    (putMember host w (Value.obj o) "innerHTML" v).1.vm.objs o' = w.vm.objs o' := by
  simp only [putMember]
  exact Object_Set_objs_other host w o o' "innerHTML" v h

theorem innerText_stale_after_write_through_other (host : Host) (depth : Nat) (w : JSEngine)
    (sel : Nodes) (V : String) :
    getMember depth
        (putMember host (elementToJSValue host (elementToJSValue host w sel).2 sel).2
          (elementToJSValue host (elementToJSValue host w sel).2 sel).1
          "innerHTML" (Value.str V)).1.vm
        (elementToJSValue host w sel).1 "innerText"
      = Completion.normal (Value.str (Text w.heap sel)) := by
  obtain ⟨h1, _, _, _, _, h6, _, h8, _, _, h11, _⟩ := elementToJSValue_spec host w sel
  obtain ⟨k1, _, _, _, _, _, k7, _⟩ := elementToJSValue_spec host (elementToJSValue host w sel).2 sel
  have hne : w.vm.nextObj ≠ (elementToJSValue host w sel).2.vm.nextObj := by rw [h6]; omega
  have hobj : (putMember host (elementToJSValue host (elementToJSValue host w sel).2 sel).2
          (elementToJSValue host (elementToJSValue host w sel).2 sel).1
          "innerHTML" (Value.str V)).1.vm.objs w.vm.nextObj
      = (elementToJSValue host w sel).2.vm.objs w.vm.nextObj := by
    rw [k1, putMember_innerHTML_objs_other host _ _ _ _ hne, k7 _ hne]
  rw [h1]
  apply Object_Get_data
  · rw [hobj]; exact h8
  · rw [hobj]; exact h11

/-- C7 as amended. `innerText` of a projected element object is a value stored when
`elementToJSValue` builds the object. After `e.innerHTML = V` through the same object,
reading `e.innerText` still yields the text the selection had when `e` was made (first
part); an object made by a later projection of the same selection yields the text of
the new content (second part); and after a write through another object of the same
selection, `e.innerText` is likewise the text from when `e` was made (third part). -/
theorem innerText_is_captured_at_creation (host : Host) (depth : Nat) (w : JSEngine) (sel : Nodes)
    (V : String) :
    getMember depth
        (putMember host (elementToJSValue host w sel).2 (elementToJSValue host w sel).1
          "innerHTML" (Value.str V)).1.vm
        (elementToJSValue host w sel).1 "innerText"
      = Completion.normal (Value.str (Text w.heap sel)) ∧
    getMember depth
        (elementToJSValue host
          (putMember host (elementToJSValue host w sel).2 (elementToJSValue host w sel).1
            "innerHTML" (Value.str V)).1 sel).2.vm
        (elementToJSValue host
          (putMember host (elementToJSValue host w sel).2 (elementToJSValue host w sel).1
            "innerHTML" (Value.str V)).1 sel).1 "innerText"
      = Completion.normal (Value.str (Text
          (putMember host (elementToJSValue host w sel).2 (elementToJSValue host w sel).1
            "innerHTML" (Value.str V)).1.heap sel)) ∧
    getMember depth
        (putMember host (elementToJSValue host (elementToJSValue host w sel).2 sel).2
          (elementToJSValue host (elementToJSValue host w sel).2 sel).1
          "innerHTML" (Value.str V)).1.vm
        (elementToJSValue host w sel).1 "innerText"
      = Completion.normal (Value.str (Text w.heap sel)) := by
  refine ⟨?_, ?_, innerText_stale_after_write_through_other host depth w sel V⟩
  · obtain ⟨h1, _, _, _, _, _, _, h8, _, _, h11, h12, _⟩ := elementToJSValue_spec host w sel
    rw [h1]
    cases hh : Html host w.heap sel with
    | some html =>
      rw [hh] at h12
      simp only [Option.map] at h12
      rw [putMember_innerHTML_accessor host _ _ _ _ _ h12]
      exact Object_Get_data depth _ _ _ _ h8 h11
    | none =>
      rw [hh] at h12
      simp only [Option.map] at h12
      rw [putMember_innerHTML_plain host _ _ _ h12]
      apply Object_Get_data
      · simpa [Runtime.store] using h8
      · simp only [Runtime.store, ↓reduceIte]
        rw [lookup_upsert_ne _ _ _ _ (by decide)]
        exact h11
  · obtain ⟨h1, _, _, _, _, _, _, h8, _, _, h11, _⟩ := elementToJSValue_spec host
      (putMember host (elementToJSValue host w sel).2 (elementToJSValue host w sel).1
          "innerHTML" (Value.str V)).1 sel
    rw [h1]
    exact Object_Get_data depth _ _ _ _ h8 h11


/-- Witness for C6: the content of `#result` renders, and reading `innerHTML` of its
object ends the process, before and after an assignment. -/
theorem innerHTML_read_never_returns_witness :
    (Html exampleHost (NewJSEngine pageInline).heap [2]).isSome ∧
    getMember 8 (elementToJSValue exampleHost (NewJSEngine pageInline) [2]).2.vm
        (elementToJSValue exampleHost (NewJSEngine pageInline) [2]).1 "innerHTML"
      = Completion.fatal :=
  ⟨by decide!,
   (innerHTML_read_never_returns exampleHost 8 (NewJSEngine pageInline) [2] "After JS"
      (by decide!)).1⟩

/-- The failing input of C6 run through `Execute`: the script
`e = document.getElementById("result"); e.innerHTML = "After JS"; back = e.innerHTML;`
does not let `Execute` return, although the write before the read took effect. -/
theorem Execute_innerHTML_read_is_fatal :
    (Execute exampleHost 64 (NewJSEngine (pageWith srcReadInnerHTML)) 0).2 = ExecResult.fatal ∧
    Text (Execute exampleHost 64 (NewJSEngine (pageWith srcReadInnerHTML)) 0).1.heap [2]
      = "After JS" ∧
    lookup "back" (Execute exampleHost 64 (NewJSEngine (pageWith srcReadInnerHTML)) 0).1.vm.globals
      = none := by
  decide!

/-- Counterexample to C7: after
`e = document.getElementById("result"); e.innerHTML = "After JS"; seen = e.innerText;`
the node's text is `After JS`, but the read of `e.innerText` gave `Before JS`, the text
the node had when `e` was made. -/
theorem innerText_read_is_stale :
    (Execute exampleHost 8 (NewJSEngine (pageWith srcReadInnerText)) 0).2
      = ExecResult.returned none ∧
    Text (Execute exampleHost 8 (NewJSEngine (pageWith srcReadInnerText)) 0).1.heap [2]
      = "After JS" ∧
    lookup "seen" (Execute exampleHost 8 (NewJSEngine (pageWith srcReadInnerText)) 0).1.vm.globals
      = some (Value.str "Before JS") := by
  decide!

/-! ## `getElementById` with a repeated id -/

/-- What `getElementById` returns, for every document and id: null when `Find("#" + id)`
selects nothing, and otherwise the projection of everything it selects. The sibling
`querySelector` projects `selection.First()`, the first match alone. -/
theorem getElementById_projects_the_whole_selection (host : Host) (w : JSEngine) (doc : Nat)
    (id : String) (hdom : w.dom = some doc) :
    (Find host w.heap [doc] ("#" ++ id) = [] →
      callNative host w Native.getElementById [Value.str id] = (w, Completion.normal Value.null)) ∧
    (Find host w.heap [doc] ("#" ++ id) ≠ [] →
      callNative host w Native.getElementById [Value.str id]
        = ((elementToJSValue host w (Find host w.heap [doc] ("#" ++ id))).2,
           Completion.normal (elementToJSValue host w (Find host w.heap [doc] ("#" ++ id))).1)) ∧
    (Find host w.heap [doc] ("#" ++ id) ≠ [] →
      callNative host w Native.querySelector [Value.str ("#" ++ id)]
        = ((elementToJSValue host w (First (Find host w.heap [doc] ("#" ++ id)))).2,
           Completion.normal
             (elementToJSValue host w (First (Find host w.heap [doc] ("#" ++ id)))).1)) := by
  refine ⟨?_, ?_, ?_⟩
  · intro h
    simp [callNative, hdom, argString, Value.String, h]
  · intro h
    have hlen : ¬ (Find host w.heap [doc] ("#" ++ id)).length = 0 := by
      intro h0; exact h (List.length_eq_zero.mp h0)
    simp only [callNative, hdom, argString, List.get?, Value.String]
    rw [if_neg hlen]
  · intro h
    have hlen : ¬ (Find host w.heap [doc] ("#" ++ id)).length = 0 := by
      intro h0; exact h (List.length_eq_zero.mp h0)
    simp only [callNative, hdom, argString, List.get?, Value.String]
    rw [if_neg hlen]

/-- C5 (what the code does, against the claim). On
`<div id="a">x</div><div id="a">y</div>` the script
`document.getElementById("a").innerHTML = "z"; document.getElementById("a").setAttribute("class", "on");`
changes both elements, not the first one only: `getElementById` hands the whole
selection of `Find("#a")` to `elementToJSValue`, where `querySelector` hands
`selection.First()`. -/
theorem getElementById_writes_every_node_with_the_id :
    Find exampleHost pageTwoIds [0] "#a" = [2, 4] ∧
    (Execute exampleHost 8 (NewJSEngine pageTwoIds) 0).2 = ExecResult.returned none ∧
    Text (Execute exampleHost 8 (NewJSEngine pageTwoIds) 0).1.heap [2] = "z" ∧
    Text (Execute exampleHost 8 (NewJSEngine pageTwoIds) 0).1.heap [4] = "z" ∧
    Attr (Execute exampleHost 8 (NewJSEngine pageTwoIds) 0).1.heap [2] "class" = some "on" ∧
    Attr (Execute exampleHost 8 (NewJSEngine pageTwoIds) 0).1.heap [4] "class" = some "on" ∧
    (callNative exampleHost { NewJSEngine pageTwoIds with dom := some 0 } Native.getElementById
        [Value.str "a"]).2 = Completion.normal (Value.obj 0) ∧
    lookup "innerText"
        ((callNative exampleHost { NewJSEngine pageTwoIds with dom := some 0 }
          Native.getElementById [Value.str "a"]).1.vm.objs 0).props
      = some (Property.data (Value.str "xy")) := by
  decide!

/-! ## `querySelectorAll` and `getElementsByTagName` on no match -/

/-- C9 (what the code does, against the claim). When the selector matches nothing,
`querySelectorAll` returns an array of length 1 whose entry 0 is the number 0:
`selectionToJSArray` calls `NewArray(selection.Length())`, which makes an array holding
its argument, and the loop that would overwrite entry 0 runs zero times. -/
theorem querySelectorAll_no_match_is_not_empty (host : Host) (depth : Nat) (w : JSEngine)
    (doc : Nat) (selector : String) (hdom : w.dom = some doc)
    (hnone : Find host w.heap [doc] selector = []) :
    (callNative host w Native.querySelectorAll [Value.str selector]).2
      = Completion.normal (Value.obj w.vm.nextObj) ∧
    getMember depth (callNative host w Native.querySelectorAll [Value.str selector]).1.vm
        (Value.obj w.vm.nextObj) "length" = Completion.normal (Value.num 1) ∧
    getIndex depth (callNative host w Native.querySelectorAll [Value.str selector]).1.vm
        (Value.obj w.vm.nextObj) 0 = Completion.normal (Value.num 0) := by
  have hc : callNative host w Native.querySelectorAll [Value.str selector]
      = ((selectionToJSArray host w []).2, Completion.normal (selectionToJSArray host w []).1) := by
    simp [callNative, hdom, argString, Value.String, hnone]
  rw [hc]
  refine ⟨by simp [selectionToJSArray, Runtime.NewArray], ?_, ?_⟩
  · cases depth <;> simp [selectionToJSArray, Runtime.NewArray, getMember, Object.Get]
  · simp [selectionToJSArray, Runtime.NewArray, getIndex]

/-- Witness for C9's theorem: `pageInline` has no `p` element, and
`document.querySelectorAll("p")` returns an array of length 1. -/
theorem querySelectorAll_no_match_is_not_empty_witness :
    ({ NewJSEngine pageInline with dom := some 0 } : JSEngine).dom = some 0 ∧
    Find exampleHost pageInline [0] "p" = [] ∧
    getMember 8
        (callNative exampleHost { NewJSEngine pageInline with dom := some 0 }
          Native.querySelectorAll [Value.str "p"]).1.vm
        (Value.obj 0) "length" = Completion.normal (Value.num 1) :=
  ⟨rfl, by decide!,
   (querySelectorAll_no_match_is_not_empty exampleHost 8
      { NewJSEngine pageInline with dom := some 0 } 0 "p" rfl (by decide!)).2.1⟩

/-- The failing input of C9 run through `Execute`: the script
`found = document.querySelectorAll("p"); count = found.length; entry = found[0];`
on a page without `p` leaves `count` 1 and `entry` the number 0. -/
theorem Execute_querySelectorAll_no_match :
    (Execute exampleHost 8 (NewJSEngine (pageWith srcQueryNone)) 0).2 = ExecResult.returned none ∧
    lookup "count" (Execute exampleHost 8 (NewJSEngine (pageWith srcQueryNone)) 0).1.vm.globals
      = some (Value.num 1) ∧
    lookup "entry" (Execute exampleHost 8 (NewJSEngine (pageWith srcQueryNone)) 0).1.vm.globals
      = some (Value.num 0) := by
  decide!

/-! ## The runtime of an engine outlives `Execute` -/

theorem Object_Set_globals (host : Host) (w : JSEngine) (o : Nat) (name : String) (v : Value) :
    (Object.Set host w o name v).1.vm.globals = w.vm.globals := by
  unfold Object.Set
  split <;> simp [Runtime.store]

theorem JSEngine_Set_globals (w : JSEngine) (k name : String) (v : Value) (h : k ≠ name) :
    lookup name (w.Set k v).1.vm.globals = lookup name w.vm.globals := by
  unfold JSEngine.Set Runtime.Set
  split
  · rfl
  · exact lookup_upsert_ne name k v _ h

theorem orReturn_keeps {P : JSEngine → Prop} {r : JSEngine × Option JSError}
    {next : JSEngine → JSEngine × Option JSError} (hr : P r.1) (hn : ∀ w, P w → P (next w).1) :
    P (orReturn r next).1 := by
  unfold orReturn
  split
  · exact hr
  · exact hn _ hr

/-- The globals of the runtime other than `window` and `document` go through
`setupDOM` untouched. -/
theorem setupDOM_globals (host : Host) (w : JSEngine) (name : String)
    (hw : name ≠ "window") (hd : name ≠ "document") :
    lookup name (setupDOM host w).1.vm.globals = lookup name w.vm.globals := by
  unfold setupDOM
  simp only [orReturn_Object_Set]
  apply orReturn_keeps (P := fun x => lookup name x.vm.globals = lookup name w.vm.globals)
  · rw [JSEngine_Set_globals _ _ _ _ (Ne.symm hw)]
    simp [Object_Set_globals, Runtime.NewObject]
  · intro w6 h6
    apply orReturn_keeps (P := fun x => lookup name x.vm.globals = lookup name w.vm.globals)
    · rw [JSEngine_Set_globals _ _ _ _ (Ne.symm hd)]; exact h6
    · intro w7 h7; exact h7

theorem Object_Set_frozen (host : Host) (w : JSEngine) (o : Nat) (name : String) (v : Value) :
    (Object.Set host w o name v).1.vm.frozen = w.vm.frozen := by
  unfold Object.Set
  split <;> simp [Runtime.store]

theorem JSEngine_Set_frozen (w : JSEngine) (k : String) (v : Value) :
    (w.Set k v).1.vm.frozen = w.vm.frozen := by
  unfold JSEngine.Set Runtime.Set
  split <;> rfl

theorem setupDOM_frozen (host : Host) (w : JSEngine) :
    (setupDOM host w).1.vm.frozen = w.vm.frozen := by
  unfold setupDOM
  simp only [orReturn_Object_Set]
  apply orReturn_keeps (P := fun x => x.vm.frozen = w.vm.frozen)
  · rw [JSEngine_Set_frozen]
    simp [Object_Set_frozen, Runtime.NewObject]
  · intro w6 h6
    apply orReturn_keeps (P := fun x => x.vm.frozen = w.vm.frozen)
    · rw [JSEngine_Set_frozen]; exact h6
    · intro w7 h7; exact h7

/-- C8 as amended. The runtime of a `JSEngine` is made once, by `NewJSEngine`, and every
`Execute` call on the engine runs its scripts in it. For an engine `w` in any state, such
as an earlier `Execute` left it: when `setupDOM` succeeds, what the call leaves is what
running the expected bodies one after the other leaves, started from the state after
`setupDOM` on the runtime of `w` itself; when `setupDOM` fails, the call leaves that
state. In that state every global other than `window` and `document` is bound as it was
in `w`, the global object is frozen if it was, and the log of the sources run is that of
`w`. So the log after the call extends the log before it, and a call on a document
without scripts leaves every such global as it was. -/
theorem Execute_keeps_the_runtime_of_its_engine (host : Host) (depth : Nat) (w : JSEngine) (doc : Nat)
    (heap : NodeHeap) (name : String) (hw : name ≠ "window") (hd : name ≠ "document") :
    (NewJSEngine heap).vm = Runtime.New ∧
    ((setupDOM host { w with dom := some doc }).2 = none →
      (Execute host depth w doc).1
        = (runInlineScripts host depth (setupDOM host { w with dom := some doc }).1
            (expectedBodies host w.heap doc)).1) ∧
    (∀ err, (setupDOM host { w with dom := some doc }).2 = some err →
      (Execute host depth w doc).1 = (setupDOM host { w with dom := some doc }).1) ∧
    lookup name (setupDOM host { w with dom := some doc }).1.vm.globals
      = lookup name w.vm.globals ∧
    (setupDOM host { w with dom := some doc }).1.vm.frozen = w.vm.frozen ∧
    (setupDOM host { w with dom := some doc }).1.vm.ran = w.vm.ran ∧
    (∃ l, (Execute host depth w doc).1.vm.ran = w.vm.ran ++ l) ∧
    (expectedBodies host w.heap doc = [] →
      lookup name (Execute host depth w doc).1.vm.globals = lookup name w.vm.globals ∧
      (Execute host depth w doc).1.vm.frozen = w.vm.frozen) := by
  have hg := setupDOM_globals host { w with dom := some doc } name hw hd
  have hf := setupDOM_frozen host { w with dom := some doc }
  have hr := setupDOM_ran host { w with dom := some doc }
  refine ⟨rfl, fun h => by rw [Execute_setup_ok host depth w doc h],
    fun err h => by rw [Execute_setup_err host depth w doc err h], hg, hf, hr, ?_, ?_⟩
  · cases hsd : (setupDOM host { w with dom := some doc }).2 with
    | some err =>
      rw [Execute_setup_err host depth w doc err hsd]
      exact ⟨[], by simpa using hr⟩
    | none =>
      rw [Execute_setup_ok host depth w doc hsd]
      rcases runInlineScripts_spec host depth (expectedBodies host w.heap doc)
          (setupDOM host { w with dom := some doc }).1 with ⟨_, h2⟩ | ⟨_, k, _, h2, _⟩
      · exact ⟨_, by simp only []; rw [h2, hr]⟩
      · exact ⟨_, by simp only []; rw [h2, hr]⟩
  · intro hb
    cases hsd : (setupDOM host { w with dom := some doc }).2 with
    | some err =>
      rw [Execute_setup_err host depth w doc err hsd]
      exact ⟨hg, hf⟩
    | none =>
      rw [Execute_setup_ok host depth w doc hsd, hb]
      simp only [runInlineScripts]
      exact ⟨hg, hf⟩

/-- Witness for C8 as amended, on one engine that loads two pages in turn: the global
`leak`, which the script of the first page defined, is bound to `secret` after the first
call and still when the scripts of the second call start, and the second call runs its
script from that state. -/
theorem Execute_keeps_the_runtime_of_its_engine_witness :
    "leak" ≠ "window" ∧ "leak" ≠ "document" ∧
    lookup "leak" (Execute exampleHost 8 (NewJSEngine (twoPages srcDefineGlobal srcShowGlobal)) 0).1.vm.globals
      = some (Value.str "secret") ∧
    lookup "leak"
        (setupDOM exampleHost
          { (Execute exampleHost 8 (NewJSEngine (twoPages srcDefineGlobal srcShowGlobal)) 0).1
            with dom := some 4 }).1.vm.globals
      = some (Value.str "secret") ∧
    (Execute exampleHost 8
        (Execute exampleHost 8 (NewJSEngine (twoPages srcDefineGlobal srcShowGlobal)) 0).1 4).1
      = (runInlineScripts exampleHost 8
          (setupDOM exampleHost
            { (Execute exampleHost 8 (NewJSEngine (twoPages srcDefineGlobal srcShowGlobal)) 0).1
              with dom := some 4 }).1
          (expectedBodies exampleHost
            (Execute exampleHost 8 (NewJSEngine (twoPages srcDefineGlobal srcShowGlobal)) 0).1.heap 4)).1 :=
  ⟨by decide, by decide, by decide!, by
    rw [(Execute_keeps_the_runtime_of_its_engine exampleHost 8
      (Execute exampleHost 8 (NewJSEngine (twoPages srcDefineGlobal srcShowGlobal)) 0).1 4
      (twoPages srcDefineGlobal srcShowGlobal) "leak" (by decide) (by decide)).2.2.2.1]
    decide!,
   (Execute_keeps_the_runtime_of_its_engine exampleHost 8
      (Execute exampleHost 8 (NewJSEngine (twoPages srcDefineGlobal srcShowGlobal)) 0).1 4
      (twoPages srcDefineGlobal srcShowGlobal) "leak" (by decide) (by decide)).2.1 (by decide!)⟩

/-- Counterexample to C8: one engine loads two pages in turn. The script of the first
page is `leak = "secret";`, the script of the second shows the global `leak` in `#out`.
After the second `Execute`, `#out` reads `secret`: the second call saw a global of the
first. On a new engine the same second page leaves `#out` as it was. -/
theorem second_Execute_sees_globals_of_the_first :
    (Execute exampleHost 8 (NewJSEngine (twoPages srcDefineGlobal srcShowGlobal)) 0).2
      = ExecResult.returned none ∧
    (Execute exampleHost 8
        (Execute exampleHost 8 (NewJSEngine (twoPages srcDefineGlobal srcShowGlobal)) 0).1 4).2
      = ExecResult.returned none ∧
    Text (Execute exampleHost 8
        (Execute exampleHost 8 (NewJSEngine (twoPages srcDefineGlobal srcShowGlobal)) 0).1 4).1.heap
      [6] = "secret" ∧
    Text (Execute exampleHost 8 (NewJSEngine (twoPages srcDefineGlobal srcShowGlobal)) 4).1.heap
      [6] = "empty" := by
  decide!

/-- An example of `setupDOM` failing, which a reused runtime makes reachable: the
first page's script freezes the global object, so `setupDOM` of the second `Execute`
fails; that call returns the error and runs none of the second page's scripts. -/
theorem Execute_after_freeze_returns_the_setup_error :
    (Execute exampleHost 8 (NewJSEngine (twoPages srcFreeze srcShowGlobal)) 0).2
      = ExecResult.returned none ∧
    (Execute exampleHost 8
        (Execute exampleHost 8 (NewJSEngine (twoPages srcFreeze srcShowGlobal)) 0).1 4).2
      = ExecResult.returned (some JSError.TypeError) ∧
    (Execute exampleHost 8
        (Execute exampleHost 8 (NewJSEngine (twoPages srcFreeze srcShowGlobal)) 0).1 4).1.vm.ran
      = [srcFreeze] := by
  decide!

/-! ## A script that assigns `innerHTML` -/

theorem JSEngine_Set_ok (w : JSEngine) (k : String) (v : Value) (hf : w.vm.frozen = false) :
    w.Set k v = ({ w with vm := { w.vm with globals := upsert k v w.vm.globals } }, none) := by
  simp [JSEngine.Set, Runtime.Set, hf]

/-- What `setupDOM` leaves on a runtime whose global object is not frozen: no error,
`document` bound to a new object that holds `getElementById`, `window` bound to a new
object whose `document` is that object, and the document tree untouched. -/
theorem setupDOM_spec (host : Host) (w : JSEngine) (hfrozen : w.vm.frozen = false) :
    (setupDOM host w).2 = none ∧
    (setupDOM host w).1.heap = w.heap ∧
    (setupDOM host w).1.dom = w.dom ∧
    lookup "document" (setupDOM host w).1.vm.globals = some (Value.obj (w.vm.nextObj + 1)) ∧
    lookup "window" (setupDOM host w).1.vm.globals = some (Value.obj w.vm.nextObj) ∧
    ((setupDOM host w).1.vm.objs (w.vm.nextObj + 1)).items = none ∧
    lookup "getElementById" ((setupDOM host w).1.vm.objs (w.vm.nextObj + 1)).props
      = some (Property.data (Value.fn Native.getElementById)) ∧
    lookup "document" ((setupDOM host w).1.vm.objs w.vm.nextObj).props
      = some (Property.data (Value.obj (w.vm.nextObj + 1))) := by
  have hne : w.vm.nextObj ≠ w.vm.nextObj + 1 := by omega
  have hne' : w.vm.nextObj + 1 ≠ w.vm.nextObj := by omega
  have o1 : w.vm.NewObject.1 = w.vm.nextObj := rfl
  have o2 : w.vm.NewObject.2.NewObject.1 = w.vm.nextObj + 1 := rfl
  unfold setupDOM
  simp only [orReturn_Object_Set, o1, o2]
  rw [JSEngine_Set_ok _ _ _ (by simp [Object_Set_frozen, Runtime.NewObject, hfrozen])]
  simp only [orReturn]
  rw [JSEngine_Set_ok _ _ _ (by simp [Object_Set_frozen, Runtime.NewObject, hfrozen])]
  simp only [orReturn]
  have e1 : ∀ k, lookup k ((w.vm.NewObject.2.NewObject.2).objs (w.vm.nextObj + 1)).props = none := by
    intro k; simp [Runtime.NewObject, lookup]
  have e2 : ∀ k, lookup k ((w.vm.NewObject.2.NewObject.2).objs w.vm.nextObj).props = none := by
    intro k; simp [Runtime.NewObject, lookup, hne]
  have e3 : ((w.vm.NewObject.2.NewObject.2).objs (w.vm.nextObj + 1)).items = none := by
    simp [Runtime.NewObject]
  refine ⟨trivial, ?_, ?_, ?_, ?_, ?_, ?_, ?_⟩
  · rw [Object_Set_heap_new, Object_Set_heap_new, Object_Set_heap_new, Object_Set_heap_new,
      Object_Set_heap_new]
    · exact e1 _
    · rw [Object_Set_lookup_other _ _ _ _ _ _ _ (by decide)]; exact e1 _
    · rw [Object_Set_lookup_other _ _ _ _ _ _ _ (by decide),
        Object_Set_lookup_other _ _ _ _ _ _ _ (by decide)]; exact e1 _
    · rw [Object_Set_lookup_other _ _ _ _ _ _ _ (by decide),
        Object_Set_lookup_other _ _ _ _ _ _ _ (by decide),
        Object_Set_lookup_other _ _ _ _ _ _ _ (by decide)]; exact e1 _
    · rw [Object_Set_objs_other _ _ _ _ _ _ hne, Object_Set_objs_other _ _ _ _ _ _ hne,
        Object_Set_objs_other _ _ _ _ _ _ hne, Object_Set_objs_other _ _ _ _ _ _ hne]
      exact e2 _
  · simp only [Object_Set_dom]
  · simp only [Object_Set_globals]
    exact lookup_upsert_same _ _ _
  · simp only [Object_Set_globals]
    rw [lookup_upsert_ne _ _ _ _ (by decide)]
    exact lookup_upsert_same _ _ _
  · simp only [Object_Set_items]
    exact e3
  · rw [Object_Set_lookup_other _ _ _ _ _ _ _ (by decide),
      Object_Set_lookup_other _ _ _ _ _ _ _ (by decide),
      Object_Set_lookup_other _ _ _ _ _ _ _ (by decide),
      Object_Set_lookup_other _ _ _ _ _ _ _ (by decide)]
    exact Object_Set_lookup_new _ _ _ _ _ (e1 _)
  · apply Object_Set_lookup_new
    rw [Object_Set_objs_other _ _ _ _ _ _ hne, Object_Set_objs_other _ _ _ _ _ _ hne,
      Object_Set_objs_other _ _ _ _ _ _ hne, Object_Set_objs_other _ _ _ _ _ _ hne]
    exact e2 _

/-- The value and state of `document.getElementById(id)` when the selection is not
empty: the object `elementToJSValue` builds for the whole selection. -/
theorem eval_byId (host : Host) (depth : Nat) (w : JSEngine) (doc d : Nat) (id : String)
    (hdom : w.dom = some doc)
    (hdoc : lookup "document" w.vm.globals = some (Value.obj d))
    (hitems : (w.vm.objs d).items = none)
    (hget : lookup "getElementById" (w.vm.objs d).props
      = some (Property.data (Value.fn Native.getElementById)))
    (hsel : Find host w.heap [doc] ("#" ++ id) ≠ []) :
    eval host depth w (byId id)
      = ((elementToJSValue host w (Find host w.heap [doc] ("#" ++ id))).2,
         Completion.normal (elementToJSValue host w (Find host w.heap [doc] ("#" ++ id))).1) := by
  have hlen : ¬ (Find host w.heap [doc] ("#" ++ id)).length = 0 := by
    intro h; exact hsel (List.length_eq_zero.mp h)
  simp only [byId, eval, hdoc, getMember]
  rw [Object_Get_data depth _ _ _ _ hitems hget]
  simp only [callValue, callNative, hdom, argString, List.get?, Value.String]
  rw [if_neg hlen]

/-- Running the one-statement script `document.getElementById(id).innerHTML = X`:
it completes normally and the document is what `SetHtml` makes of it, on the whole
selection of `#id`. -/
theorem RunString_assign_innerHTML (host : Host) (depth : Nat) (w : JSEngine) (doc d : Nat)
    (id X body : String)
    (hprog : host.Compile body = some [Stmt.assignMember (byId id) "innerHTML" (Expr.str X)])
    (hdom : w.dom = some doc)
    (hdoc : lookup "document" w.vm.globals = some (Value.obj d))
    (hitems : (w.vm.objs d).items = none)
    (hget : lookup "getElementById" (w.vm.objs d).props
      = some (Property.data (Value.fn Native.getElementById)))
    (hsel : Find host w.heap [doc] ("#" ++ id) ≠ [])
    (hrender : (Html host w.heap (Find host w.heap [doc] ("#" ++ id))).isSome) :
    (RunString host depth w body).2 = Completion.normal () ∧
    (RunString host depth w body).1.heap
      = SetHtml host w.heap (Find host w.heap [doc] ("#" ++ id)) X := by
  unfold RunString
  simp only [hprog, execProgram, execStmt]
  have he := eval_byId host depth
    { w with vm := { w.vm with ran := w.vm.ran ++ [body] } } doc d id hdom hdoc hitems hget hsel
  simp only [] at he
  rw [he]
  simp only [eval]
  obtain ⟨h1, h2, _, _, _, _, _, _, _, _, _, h12, _⟩ := elementToJSValue_spec host
    { w with vm := { w.vm with ran := w.vm.ran ++ [body] } } (Find host w.heap [doc] ("#" ++ id))
  obtain ⟨html, hh⟩ := Option.isSome_iff_exists.mp hrender
  simp only [hh, Option.map] at h12
  rw [h1, putMember_innerHTML_accessor host _ _ _ _ _ h12]
  simp [h2, Value.String]

/-- Running the one-statement script `document.getElementById(id).innerHTML = X` does
not depend on the Go stack that is left: no getter is called. -/
theorem RunString_assign_innerHTML_depth (host : Host) (depth : Nat) (w : JSEngine) (doc d : Nat)
    (id X body : String)
    (hprog : host.Compile body = some [Stmt.assignMember (byId id) "innerHTML" (Expr.str X)])
    (hdom : w.dom = some doc)
    (hdoc : lookup "document" w.vm.globals = some (Value.obj d))
    (hitems : (w.vm.objs d).items = none)
    (hget : lookup "getElementById" (w.vm.objs d).props
      = some (Property.data (Value.fn Native.getElementById)))
    (hsel : Find host w.heap [doc] ("#" ++ id) ≠ []) :
    RunString host depth w body = RunString host 0 w body := by
  unfold RunString
  simp only [hprog, execProgram, execStmt]
  have he := fun dp => eval_byId host dp
    { w with vm := { w.vm with ran := w.vm.ran ++ [body] } } doc d id hdom hdoc hitems hget hsel
  simp only [] at he
  rw [he depth, he 0]
  simp only [eval]

/-- The value of `document.getElementById(id)` when the selection of `"#" + id` is
empty: `null`, and nothing changes. -/
theorem eval_byId_null (host : Host) (depth : Nat) (w : JSEngine) (doc d : Nat) (id : String)
    (hdom : w.dom = some doc)
    (hdoc : lookup "document" w.vm.globals = some (Value.obj d))
    (hitems : (w.vm.objs d).items = none)
    (hget : lookup "getElementById" (w.vm.objs d).props
      = some (Property.data (Value.fn Native.getElementById)))
    (hsel : Find host w.heap [doc] ("#" ++ id) = []) :
    eval host depth w (byId id) = (w, Completion.normal Value.null) := by
  simp only [byId, eval, hdoc, getMember]
  rw [Object_Get_data depth _ _ _ _ hitems hget]
  simp only [callValue, callNative, hdom, argString, List.get?, Value.String, hsel]
  simp

/-- Running the one-statement script `document.getElementById(id).innerHTML = X` when
the selection of `"#" + id` is empty: the assignment to a property of `null` is a
`TypeError`, and the document stays as it was. -/
theorem RunString_assign_innerHTML_null (host : Host) (depth : Nat) (w : JSEngine) (doc d : Nat)
    (id X body : String)
    (hprog : host.Compile body = some [Stmt.assignMember (byId id) "innerHTML" (Expr.str X)])
    (hdom : w.dom = some doc)
    (hdoc : lookup "document" w.vm.globals = some (Value.obj d))
    (hitems : (w.vm.objs d).items = none)
    (hget : lookup "getElementById" (w.vm.objs d).props
      = some (Property.data (Value.fn Native.getElementById)))
    (hsel : Find host w.heap [doc] ("#" ++ id) = []) :
    (RunString host depth w body).2 = Completion.throw JSError.TypeError ∧
    (RunString host depth w body).1.heap = w.heap := by
  unfold RunString
  simp only [hprog, execProgram, execStmt]
  have he := eval_byId_null host depth
    { w with vm := { w.vm with ran := w.vm.ran ++ [body] } } doc d id hdom hdoc hitems hget hsel
  simp only [] at he
  rw [he]
  simp only [eval, putMember, and_self]

/-- The three statements `e = document.getElementById(id); e.innerHTML = X;
back = e.innerHTML;` on a document in which `#id` selects something that renders: the
read in the third statement ends the process, whatever Go stack is left. -/
theorem execProgram_read_innerHTML_fatal (host : Host) (depth : Nat) (w : JSEngine) (doc d : Nat)
    (id X : String)
    (hfrozen : w.vm.frozen = false)
    (hdom : w.dom = some doc)
    (hdoc : lookup "document" w.vm.globals = some (Value.obj d))
    (hitems : (w.vm.objs d).items = none)
    (hget : lookup "getElementById" (w.vm.objs d).props
      = some (Property.data (Value.fn Native.getElementById)))
    (hsel : Find host w.heap [doc] ("#" ++ id) ≠ [])
    (hrender : (Html host w.heap (Find host w.heap [doc] ("#" ++ id))).isSome) :
    (execProgram host depth w
      [Stmt.assign "e" (byId id),
       Stmt.assignMember (Expr.ident "e") "innerHTML" (Expr.str X),
       Stmt.assign "back" (Expr.member (Expr.ident "e") "innerHTML")]).2 = Completion.fatal := by
  simp only [execProgram, execStmt]
  rw [eval_byId host depth w doc d id hdom hdoc hitems hget hsel]
  obtain ⟨h1, _, _, _, h5, _, _, h8, _, _, _, h12, _⟩ := elementToJSValue_spec host
    w (Find host w.heap [doc] ("#" ++ id))
  obtain ⟨html, hh⟩ := Option.isSome_iff_exists.mp hrender
  simp only [hh, Option.map] at h12
  generalize elementToJSValue host w (Find host w.heap [doc] ("#" ++ id)) = r at *
  obtain ⟨v, w1⟩ := r
  simp only [] at h1 h5 h8 h12
  subst h1
  rw [hfrozen] at h5
  simp only [eval, Runtime.Set, h5, lookup_upsert_same, Bool.false_eq_true, if_false]
  rw [putMember_innerHTML_accessor host _ _ _ _ _ (by simpa using h12)]
  simp only [lookup_upsert_same, getMember]
  rw [Object_Get_innerHTML_fatal depth _ _ _ (by simpa using h8) (by simpa using h12)]

/-- Running a source that compiles to those three statements ends the process. -/
theorem RunString_read_innerHTML_fatal (host : Host) (depth : Nat) (w : JSEngine) (doc d : Nat)
    (id X body : String)
    (hprog : host.Compile body = some
      [Stmt.assign "e" (byId id),
       Stmt.assignMember (Expr.ident "e") "innerHTML" (Expr.str X),
       Stmt.assign "back" (Expr.member (Expr.ident "e") "innerHTML")])
    (hfrozen : w.vm.frozen = false)
    (hdom : w.dom = some doc)
    (hdoc : lookup "document" w.vm.globals = some (Value.obj d))
    (hitems : (w.vm.objs d).items = none)
    (hget : lookup "getElementById" (w.vm.objs d).props
      = some (Property.data (Value.fn Native.getElementById)))
    (hsel : Find host w.heap [doc] ("#" ++ id) ≠ [])
    (hrender : (Html host w.heap (Find host w.heap [doc] ("#" ++ id))).isSome) :
    (RunString host depth w body).2 = Completion.fatal := by
  unfold RunString
  simp only [hprog]
  exact execProgram_read_innerHTML_fatal host depth _ doc d id X hfrozen hdom hdoc hitems hget
    hsel hrender

/-! ## `SetHtml` on the heap -/

theorem storeCells_spec (base : Nat) (cs : List HtmlNode) (cell : Nat → HtmlNode) (p q : Nat) :
    storeCells base cell p cs q =
      if p ≤ q ∧ q < p + cs.length then relocate base (cs.getD (q - p) (textNode ""))
      else cell q := by
  induction cs generalizing cell p with
  | nil =>
    have h : ¬ (p ≤ q ∧ q < p + ([] : List HtmlNode).length) := by simp
    rw [if_neg h]; rfl
  | cons c cs ih =>
    rw [storeCells, ih]
    by_cases h1 : p + 1 ≤ q ∧ q < p + 1 + cs.length
    · have h2 : p ≤ q ∧ q < p + (c :: cs).length := by simp; omega
      rw [if_pos h1, if_pos h2]
      have h3 : q - p = (q - (p + 1)) + 1 := by omega
      rw [h3, List.getD_cons_succ]
    · rw [if_neg h1]
      by_cases h4 : q = p
      · subst h4
        simp
      · have h2 : ¬ (p ≤ q ∧ q < p + (c :: cs).length) := by simp; omega
        rw [if_neg h2, if_neg h4]

theorem clearKids_spec (s : Nodes) (h : NodeHeap) :
    (s.foldl (fun h n => h.write n { h.cell n with kids := [] }) h).next = h.next ∧
    ∀ q, (s.foldl (fun h n => h.write n { h.cell n with kids := [] }) h).cell q
      = if q ∈ s then { h.cell q with kids := [] } else h.cell q := by
  induction s generalizing h with
  | nil => simp
  | cons n s ih =>
    rw [List.foldl_cons]
    obtain ⟨h1, h2⟩ := ih (h.write n { h.cell n with kids := [] })
    refine ⟨by rw [h1]; rfl, ?_⟩
    intro q
    rw [h2]
    by_cases hq : q = n
    · subst hq
      by_cases hs : q ∈ s <;> simp [hs, NodeHeap.write]
    · by_cases hs : q ∈ s <;> simp [hs, hq, NodeHeap.write]

theorem appendParsed_spec (host : Host) (X : String) (hc : NodeHeap) (n : Nat)
    (hn : n < hc.next) (he : (hc.cell n).typ = NodeType.ElementNode) :
    (appendParsed host X hc n).next = hc.next + (host.ParseFragment X (hc.cell n)).cells.length ∧
    (appendParsed host X hc n).cell n
      = { hc.cell n with
          kids := (hc.cell n).kids ++
            (host.ParseFragment X (hc.cell n)).roots.map (fun r => hc.next + r) } ∧
    (∀ q, q ≠ n → q < hc.next → (appendParsed host X hc n).cell q = hc.cell q) ∧
    (∀ i, i < (host.ParseFragment X (hc.cell n)).cells.length →
      (appendParsed host X hc n).cell (hc.next + i)
        = relocate hc.next ((host.ParseFragment X (hc.cell n)).cells.getD i (textNode ""))) := by
  unfold appendParsed
  rw [if_pos he]
  simp only [NodeHeap.alloc, NodeHeap.write]
  have hsame : storeCells hc.next hc.cell hc.next (host.ParseFragment X (hc.cell n)).cells n
      = hc.cell n := by
    rw [storeCells_spec, if_neg (by omega)]
  refine ⟨trivial, ?_, ?_, ?_⟩
  · simp [hsame]
  · intro q hq hlt
    simp only [if_neg hq]
    rw [storeCells_spec, if_neg (by omega)]
  · intro i hi
    have hne : hc.next + i ≠ n := by omega
    simp only [if_neg hne]
    rw [storeCells_spec, if_pos (by omega)]
    simp

/-- The second loop of `SetHtml` over nodes that are distinct, allocated, elements and
already emptied: each ends up with a fresh copy of its parse as its children, and
nothing else that was allocated before changes. -/
theorem appendParsed_foldl (host : Host) (X : String) (base0 : Nat) (todo : Nodes)
    (hc : NodeHeap) (hnodup : todo.Nodup) (hlt : ∀ n ∈ todo, n < base0) (hb : base0 ≤ hc.next)
    (helem : ∀ n ∈ todo, (hc.cell n).typ = NodeType.ElementNode)
    (hkids : ∀ n ∈ todo, (hc.cell n).kids = []) :
    hc.next ≤ (todo.foldl (appendParsed host X) hc).next ∧
    (∀ q, q < hc.next → q ∉ todo → (todo.foldl (appendParsed host X) hc).cell q = hc.cell q) ∧
    (∀ n ∈ todo, ∃ base, hc.next ≤ base ∧
      base + (host.ParseFragment X (hc.cell n)).cells.length
        ≤ (todo.foldl (appendParsed host X) hc).next ∧
      (todo.foldl (appendParsed host X) hc).cell n
        = { hc.cell n with
            kids := (host.ParseFragment X (hc.cell n)).roots.map (fun r => base + r) } ∧
      ∀ i, i < (host.ParseFragment X (hc.cell n)).cells.length →
        (todo.foldl (appendParsed host X) hc).cell (base + i)
          = relocate base ((host.ParseFragment X (hc.cell n)).cells.getD i (textNode ""))) := by
  induction todo generalizing hc with
  | nil => simp
  | cons n rest ih =>
    rw [List.foldl_cons]
    have hn : n < hc.next := lt_of_lt_of_le (hlt n (by simp)) hb
    obtain ⟨s1, s2, s3, s4⟩ := appendParsed_spec host X hc n hn (helem n (by simp))
    have hnr : n ∉ rest := (List.nodup_cons.mp hnodup).1
    have hrest_lt : ∀ m ∈ rest, m < base0 := fun m hm => hlt m (by simp [hm])
    have hcell : ∀ m ∈ rest, (appendParsed host X hc n).cell m = hc.cell m := by
      intro m hm
      apply s3
      · intro e; subst e; exact hnr hm
      · exact lt_of_lt_of_le (hrest_lt m hm) hb
    obtain ⟨i1, i2, i3⟩ := ih (appendParsed host X hc n) (List.nodup_cons.mp hnodup).2 hrest_lt
      (by rw [s1]; omega)
      (fun m hm => by rw [hcell m hm]; exact helem m (by simp [hm]))
      (fun m hm => by rw [hcell m hm]; exact hkids m (by simp [hm]))
    refine ⟨by rw [s1] at i1; omega, ?_, ?_⟩
    · intro q hq hqn
      simp only [List.mem_cons, not_or] at hqn
      rw [i2 q (by rw [s1]; omega) hqn.2]
      exact s3 q hqn.1 hq
    · intro m hm
      rcases List.mem_cons.mp hm with e | hm'
      · subst e
        refine ⟨hc.next, le_refl _, by rw [s1] at i1; exact i1, ?_, ?_⟩
        · rw [i2 m (by rw [s1]; omega) hnr, s2, hkids m (by simp)]
          simp
        · intro i hi
          rw [i2 (hc.next + i) (by rw [s1]; omega)
            (fun hmem => by have := hrest_lt _ hmem; omega)]
          exact s4 i hi
      · obtain ⟨base, b1, b2, b3, b4⟩ := i3 m hm'
        rw [hcell m hm'] at b2 b3 b4
        exact ⟨base, by rw [s1] at b1; omega, b2, b3, b4⟩

/-- Models `SetHtml` on a selection of distinct, allocated elements: every node of the
selection keeps its tag and attributes and gets as children a fresh copy of the parse of
the markup in its own context. -/
theorem SetHtml_spec (host : Host) (h : NodeHeap) (s : Nodes) (X : String)
    (hnodup : s.Nodup) (hlt : ∀ n ∈ s, n < h.next)
    (helem : ∀ n ∈ s, (h.cell n).typ = NodeType.ElementNode) :
    ∀ n ∈ s, ∃ base, h.next ≤ base ∧
      base + (host.ParseFragment X { h.cell n with kids := [] }).cells.length
        ≤ (SetHtml host h s X).next ∧
      (SetHtml host h s X).cell n
        = { h.cell n with
            kids := (host.ParseFragment X { h.cell n with kids := [] }).roots.map
              (fun r => base + r) } ∧
      ∀ i, i < (host.ParseFragment X { h.cell n with kids := [] }).cells.length →
        (SetHtml host h s X).cell (base + i)
          = relocate base
              ((host.ParseFragment X { h.cell n with kids := [] }).cells.getD i (textNode "")) := by
  obtain ⟨c1, c2⟩ := clearKids_spec s h
  have hcell : ∀ n ∈ s,
      (s.foldl (fun h n => h.write n { h.cell n with kids := [] }) h).cell n
        = { h.cell n with kids := [] } := by
    intro n hn; rw [c2, if_pos hn]
  obtain ⟨_, _, a3⟩ := appendParsed_foldl host X h.next s
    (s.foldl (fun h n => h.write n { h.cell n with kids := [] }) h) hnodup hlt (by rw [c1])
    (fun n hn => by rw [hcell n hn]; exact helem n hn)
    (fun n hn => by rw [hcell n hn])
  intro n hn
  obtain ⟨base, b1, b2, b3, b4⟩ := a3 n hn
  rw [hcell n hn] at b2 b3 b4
  rw [c1] at b1
  exact ⟨base, b1, b2, b3, b4⟩

theorem appendWithoutDuplicates_nodup (nodes target : List Nat) (h : target.Nodup) :
    (appendWithoutDuplicates target nodes).Nodup := by
  unfold appendWithoutDuplicates
  induction nodes generalizing target with
  | nil => exact h
  | cons n nodes ih =>
    rw [List.foldl_cons]
    apply ih
    by_cases hm : n ∈ target
    · rw [if_pos hm]; exact h
    · rw [if_neg hm]
      exact List.Nodup.append h (List.nodup_singleton n) (by simpa using hm)

theorem appendWithoutDuplicates_mem (nodes target : List Nat) (x : Nat)
    (h : x ∈ appendWithoutDuplicates target nodes) : x ∈ target ∨ x ∈ nodes := by
  unfold appendWithoutDuplicates at h
  induction nodes generalizing target with
  | nil => left; exact h
  | cons n nodes ih =>
    rw [List.foldl_cons] at h
    rcases ih _ h with h1 | h1
    · by_cases hm : n ∈ target
      · rw [if_pos hm] at h1; left; exact h1
      · rw [if_neg hm] at h1
        rcases List.mem_append.mp h1 with h2 | h2
        · left; exact h2
        · right; simp at h2; simp [h2]
    · right; simp [h1]

theorem matchAll_mem (m : Matcher) (h : NodeHeap) (fuel : Nat) (r x : Nat)
    (hx : x ∈ matchAll m h fuel r) : m h x = true := by
  induction fuel generalizing r with
  | zero => simp [matchAll] at hx
  | succ fuel ih =>
    simp only [matchAll, List.mem_append, List.mem_flatten, List.mem_map] at hx
    rcases hx with hx | ⟨l, ⟨c, _, hc⟩, hl⟩
    · by_cases hm : m h r = true
      · simp [hm] at hx; subst hx; exact hm
      · simp [hm] at hx
    · subst hc; exact ih c hl

theorem findWithMatcher_nodup (h : NodeHeap) (nodes : Nodes) (m : Matcher) :
    (findWithMatcher h nodes m).Nodup := by
  unfold findWithMatcher
  suffices H : ∀ acc : List Nat, acc.Nodup →
      (nodes.foldl (fun result n => appendWithoutDuplicates result
        ((((h.cell n).kids.filter (fun c => (h.cell c).typ = NodeType.ElementNode)).map
          (matchAll m h h.next)).flatten)) acc).Nodup from H [] List.nodup_nil
  induction nodes with
  | nil => intro acc hacc; exact hacc
  | cons n nodes ih =>
    intro acc hacc
    rw [List.foldl_cons]
    exact ih _ (appendWithoutDuplicates_nodup _ _ hacc)

theorem findWithMatcher_mem (h : NodeHeap) (nodes : Nodes) (m : Matcher) (x : Nat)
    (hx : x ∈ findWithMatcher h nodes m) : m h x = true := by
  have H : ∀ (nodes : Nodes) (acc : List Nat), (∀ y ∈ acc, m h y = true) →
      ∀ y ∈ (nodes.foldl (fun result n => appendWithoutDuplicates result
        ((((h.cell n).kids.filter (fun c => (h.cell c).typ = NodeType.ElementNode)).map
          (matchAll m h h.next)).flatten)) acc), m h y = true := by
    intro nodes
    induction nodes with
    | nil => intro acc hacc y hy; exact hacc y hy
    | cons n nodes ih =>
      intro acc hacc
      rw [List.foldl_cons]
      apply ih
      intro y hy
      rcases appendWithoutDuplicates_mem _ _ _ hy with h1 | h1
      · exact hacc y h1
      · simp only [List.mem_flatten, List.mem_map] at h1
        obtain ⟨l, ⟨c, _, hc⟩, hl⟩ := h1
        subst hc
        exact matchAll_mem m h _ c y hl
  exact H nodes [] (by simp) x hx

/-- The text of an element whose only child is a childless text node. -/
theorem Text_single_text_child (h : NodeHeap) (n t : Nat) (X : String)
    (hn : (h.cell n).typ = NodeType.ElementNode) (hkids : (h.cell n).kids = [t])
    (ht : h.cell t = textNode X) (hnext : 2 ≤ h.next) :
    Text h [n] = X := by
  obtain ⟨k, hk⟩ : ∃ k, h.next = k + 2 := ⟨h.next - 2, by omega⟩
  simp [Text, hk, nodeText, hn, hkids, ht, textNode, String.join]

/-! ## The scenario of the tests -/

/-- What `Execute` does on pages like those of the two tests. Take a document whose one
executed script body (an inline script, or an external script whose fetch succeeded) is
`document.getElementById(id).innerHTML = X`, an id for which the selector `"#" + id`
selects by id (true of a plain name such as `result`, not of every id), an engine whose
global object is not frozen, and a selection that is not empty, is allocated and
renders. Then `Execute` returns nil, and every node of the selection keeps its tag and
attributes and has as its children a fresh copy of the parse of `X`; when `X` is plain
text, parsed as one text node, the text content of the node is `X`. -/
theorem Execute_innerHTML_assignment (host : Host) (depth : Nat) (w : JSEngine) (doc : Nat)
    (id X body : String)
    (hfrozen : w.vm.frozen = false)
    (hone : expectedBodies host w.heap doc = [body])
    (hprog : host.Compile body = some [Stmt.assignMember (byId id) "innerHTML" (Expr.str X)])
    (hid : host.compileMatcher ("#" ++ id) = idMatcher id)
    (hsel : elementsWithId w.heap doc id ≠ [])
    (hrender : (Html host w.heap (elementsWithId w.heap doc id)).isSome)
    (halloc : ∀ n ∈ elementsWithId w.heap doc id, n < w.heap.next) :
    (Execute host depth w doc).2 = ExecResult.returned none ∧
    ∀ n ∈ elementsWithId w.heap doc id,
      ((Execute host depth w doc).1.heap.cell n).Data = (w.heap.cell n).Data ∧
      ((Execute host depth w doc).1.heap.cell n).Attr = (w.heap.cell n).Attr ∧
      HoldsFragment (Execute host depth w doc).1.heap n
        (host.ParseFragment X { w.heap.cell n with kids := [] }) ∧
      (host.ParseFragment X { w.heap.cell n with kids := [] }
          = { cells := [textNode X], roots := [0] } →
        Text (Execute host depth w doc).1.heap [n] = X) := by
  obtain ⟨s1, s2, s3, s4, _, s6, s7, _⟩ := setupDOM_spec host { w with dom := some doc } hfrozen
  have hfind : Find host (setupDOM host { w with dom := some doc }).1.heap [doc] ("#" ++ id)
      = elementsWithId w.heap doc id := by
    rw [s2]; unfold Find elementsWithId; rw [hid]
  obtain ⟨r1, r2⟩ := RunString_assign_innerHTML host depth
    (setupDOM host { w with dom := some doc }).1 doc (w.vm.nextObj + 1) id X body hprog
    (by rw [s3]) s4 s6 s7 (by rw [hfind]; exact hsel) (by rw [hfind, s2]; exact hrender)
  rw [hfind, s2] at r2
  have hexec : Execute host depth w doc
      = ((RunString host depth (setupDOM host { w with dom := some doc }).1 body).1,
         ExecResult.returned none) := by
    rw [Execute_setup_ok host depth w doc s1, hone, runInlineScripts_cons]
    simp [r1, runInlineScripts]
  rw [hexec]
  refine ⟨rfl, ?_⟩
  intro n hn
  simp only []
  rw [r2]
  have helem : ∀ m ∈ elementsWithId w.heap doc id, (w.heap.cell m).typ = NodeType.ElementNode := by
    intro m hm
    have := findWithMatcher_mem _ _ _ _ hm
    simp only [idMatcher, Bool.and_eq_true, decide_eq_true_eq] at this
    exact this.1
  obtain ⟨base, b1, b2, b3, b4⟩ := SetHtml_spec host w.heap (elementsWithId w.heap doc id) X
    (findWithMatcher_nodup _ _ _) halloc helem n hn
  refine ⟨by rw [b3], by rw [b3], ⟨base, b2, by rw [b3], b4⟩, ?_⟩
  intro hfrag
  rw [hfrag] at b2 b3 b4
  have hlt := halloc n hn
  apply Text_single_text_child _ n (base + 0) X
  · rw [b3]; exact helem n hn
  · rw [b3]; simp
  · rw [b4 0 (by simp)]; simp [relocate, textNode]
  · simp at b2
    show 2 ≤ (SetHtml host w.heap (elementsWithId w.heap doc id) X).next
    omega


/-- An instance on the page of `TestJavaScript`: after `Execute` the text of `#result`
is `After JS`. -/
theorem Execute_innerHTML_assignment_witness :
    (NewJSEngine pageInline).vm.frozen = false ∧
    expectedBodies exampleHost (NewJSEngine pageInline).heap 0 = [srcSetResult] ∧
    elementsWithId (NewJSEngine pageInline).heap 0 "result" = [2] ∧
    (Execute exampleHost 8 (NewJSEngine pageInline) 0).2 = ExecResult.returned none ∧
    Text (Execute exampleHost 8 (NewJSEngine pageInline) 0).1.heap [2] = "After JS" :=
  ⟨rfl, by decide!, by decide!,
   (Execute_innerHTML_assignment exampleHost 8 (NewJSEngine pageInline) 0 "result" "After JS"
      srcSetResult rfl (by decide!) (by decide!) (by rfl) (by decide!) (by decide!)
      (by decide!)).1,
   ((Execute_innerHTML_assignment exampleHost 8 (NewJSEngine pageInline) 0 "result" "After JS"
      srcSetResult rfl (by decide!) (by decide!) (by rfl) (by decide!) (by decide!)
      (by decide!)).2 2 (by decide!)).2.2.2 (by decide!)⟩

/-- The same on the page of `TestJavaScriptExternalScript`, whose one script is
external and fetched from `a.js`. -/
theorem Execute_innerHTML_assignment_external :
    expectedBodies exampleHost (NewJSEngine pageExternal).heap 0 = [srcSetResult] ∧
    Text (Execute exampleHost 8 (NewJSEngine pageExternal) 0).1.heap [2] = "After JS" := by
  decide!

/-! ## `selectionToJSArray` on one or more nodes -/

theorem setItem_next (pre : List Value) (k : Nat) (v : Value)
    (hlen : pre.length = k ∨ (k = 0 ∧ pre.length = 1)) :
    setItem pre k v = pre.take k ++ [v] := by
  unfold setItem
  rcases hlen with h | ⟨h0, h1⟩
  · subst h
    rw [if_neg (by omega)]
    simp
  · subst h0
    match pre, h1 with
    | [x], _ => simp

theorem selectionToJSArrayStep_spec (host : Host) (arr : Nat) (w : JSEngine) (k n : Nat)
    (pre : List Value) (harr : arr < w.vm.nextObj) (hitems : (w.vm.objs arr).items = some pre) :
    (selectionToJSArrayStep host arr w (k, n)).heap = w.heap ∧
    (selectionToJSArrayStep host arr w (k, n)).vm.nextObj = w.vm.nextObj + 1 ∧
    ((selectionToJSArrayStep host arr w (k, n)).vm.objs arr).items
      = some (setItem pre k (Value.obj w.vm.nextObj)) ∧
    (∀ r, r ≠ arr → r ≠ w.vm.nextObj →
      (selectionToJSArrayStep host arr w (k, n)).vm.objs r = w.vm.objs r) ∧
    (selectionToJSArrayStep host arr w (k, n)).vm.objs w.vm.nextObj
      = (elementToJSValue host w [n]).2.vm.objs w.vm.nextObj := by
  obtain ⟨h1, h2, _, _, _, h6, h7, _⟩ := elementToJSValue_spec host w [n]
  have hne : arr ≠ w.vm.nextObj := by omega
  unfold selectionToJSArrayStep
  simp only [Runtime.SetIdx, Runtime.store]
  refine ⟨h2, h6, ?_, ?_, ?_⟩
  · simp [h7 arr hne, hitems, h1]
  · intro r hr1 hr2
    simp [hr1, h7 r hr2]
  · simp [Ne.symm hne]

theorem elementToJSValue_isProjection (host : Host) (w : JSEngine) (sel : Nodes) :
    IsProjection host w.heap (elementToJSValue host w sel).2.vm w.vm.nextObj sel := by
  obtain ⟨_, _, _, _, _, _, _, h8, h9, h10, h11, h12, h13⟩ := elementToJSValue_spec host w sel
  exact ⟨h8, h9, h10, h11, h12, h13⟩

theorem IsProjection_congr (host : Host) (heap : NodeHeap) (vm vm' : Runtime) (o : Nat)
    (sel : Nodes) (h : vm'.objs o = vm.objs o) (hp : IsProjection host heap vm o sel) :
    IsProjection host heap vm' o sel := by
  unfold IsProjection at *
  rw [h]; exact hp

/-- The loop of `selectionToJSArray` from position `k` on: each remaining node gets a
new projected object, stored at its position in the array. -/
theorem selectionToJSArray_foldl (host : Host) (arr : Nat) (rest : List Nat) (k : Nat)
    (w : JSEngine) (pre : List Value) (harr : arr < w.vm.nextObj)
    (hitems : (w.vm.objs arr).items = some pre)
    (hlen : pre.length = k ∨ (k = 0 ∧ pre.length = 1)) :
    ((rest.enumFrom k).foldl (selectionToJSArrayStep host arr) w).heap = w.heap ∧
    ((rest.enumFrom k).foldl (selectionToJSArrayStep host arr) w).vm.nextObj
      = w.vm.nextObj + rest.length ∧
    (rest ≠ [] →
      (((rest.enumFrom k).foldl (selectionToJSArrayStep host arr) w).vm.objs arr).items
        = some (pre.take k ++
            (List.range rest.length).map (fun j => Value.obj (w.vm.nextObj + j)))) ∧
    (∀ r, r ≠ arr → r < w.vm.nextObj →
      ((rest.enumFrom k).foldl (selectionToJSArrayStep host arr) w).vm.objs r = w.vm.objs r) ∧
    (∀ j n, rest.get? j = some n →
      IsProjection host w.heap ((rest.enumFrom k).foldl (selectionToJSArrayStep host arr) w).vm
        (w.vm.nextObj + j) [n]) := by
  induction rest generalizing k w pre with
  | nil => simp
  | cons n rest ih =>
    rw [List.enumFrom_cons, List.foldl_cons]
    obtain ⟨s1, s2, s3, s4, s5⟩ := selectionToJSArrayStep_spec host arr w k n pre harr hitems
    rw [setItem_next pre k _ hlen] at s3
    have hlen' : (pre.take k ++ [Value.obj w.vm.nextObj]).length = k + 1 := by
      rcases hlen with h | ⟨h0, h1⟩
      · simp [h]
      · subst h0; simp
    obtain ⟨i1, i2, i3, i4, i5⟩ := ih (k + 1) (selectionToJSArrayStep host arr w (k, n))
      (pre.take k ++ [Value.obj w.vm.nextObj]) (by rw [s2]; omega) s3 (Or.inl hlen')
    have hproj0 : IsProjection host w.heap (selectionToJSArrayStep host arr w (k, n)).vm
        w.vm.nextObj [n] :=
      IsProjection_congr host w.heap _ _ _ _ s5 (elementToJSValue_isProjection host w [n])
    refine ⟨by rw [i1, s1], by rw [i2, s2]; simp; omega, ?_, ?_, ?_⟩
    · intro _
      by_cases hr : rest = []
      · subst hr
        simp [s3, List.range_succ]
      · rw [i3 hr, s2]
        have htake : (pre.take k ++ [Value.obj w.vm.nextObj]).take (k + 1)
            = pre.take k ++ [Value.obj w.vm.nextObj] := by
          rw [List.take_of_length_le (by rw [hlen'])]
        rw [htake, List.length_cons, List.range_succ_eq_map]
        simp [List.map_map, Function.comp, Nat.add_assoc, Nat.add_comm 1]
    · intro r hr1 hr2
      rw [i4 r hr1 (by rw [s2]; omega)]
      exact s4 r hr1 (by omega)
    · intro j m hj
      cases j with
      | zero =>
        simp at hj; subst hj
        apply IsProjection_congr host w.heap _ _ _ _ _ hproj0
        exact i4 _ (by omega) (by rw [s2]; omega)
      | succ j =>
        simp at hj
        have := i5 j m (by simpa using hj)
        rw [s1, s2] at this
        have e : w.vm.nextObj + 1 + j = w.vm.nextObj + (j + 1) := by omega
        rw [e] at this
        exact this

/-- The part of C9 that the code keeps: for a selection of one or more nodes,
`selectionToJSArray` returns an array with one entry per node, in selection order, and
entry `j` is a new object that is the projection of node `j` alone. -/
theorem selectionToJSArray_of_matches (host : Host) (w : JSEngine) (sel : Nodes)
    (hsel : sel ≠ []) :
    (selectionToJSArray host w sel).1 = Value.obj w.vm.nextObj ∧
    ((selectionToJSArray host w sel).2.vm.objs w.vm.nextObj).items
      = some ((List.range sel.length).map (fun j => Value.obj (w.vm.nextObj + 1 + j))) ∧
    (∀ j n, sel.get? j = some n →
      IsProjection host w.heap (selectionToJSArray host w sel).2.vm (w.vm.nextObj + 1 + j) [n]) := by
  obtain ⟨_, _, f3, _, f5⟩ := selectionToJSArray_foldl host w.vm.nextObj sel 0
    { w with vm := (w.vm.NewArray [Value.num sel.length]).2 } [Value.num sel.length]
    (by simp [Runtime.NewArray]) (by simp [Runtime.NewArray]) (Or.inr ⟨rfl, rfl⟩)
  refine ⟨rfl, ?_, ?_⟩
  · have := f3 hsel
    simpa [selectionToJSArray, List.enum, Runtime.NewArray] using this
  · intro j n hj
    have := f5 j n hj
    simpa [selectionToJSArray, List.enum, Runtime.NewArray] using this

/-! ## Pages on which `Execute` departs from the specification -/

/-- C1 (what the code does, against the claim). On the page
`<div id="result">Before JS</div><script>e = document.getElementById("result"); e.innerHTML = "After JS"; back = e.innerHTML;</script><script src="a.js"></script><script>mark = "c";</script>`
`setupDOM` succeeds, `a.js` is fetched, and the bodies to run are the body of `a.js`
and then the two inline bodies. The body of `a.js` runs first, then the first inline
body, whose read of `e.innerHTML` exhausts the Go stack, whatever stack is left (the
getter of `elementToJSValue` calls itself). `Execute` does not return, and the last
inline body is never run. -/
theorem Execute_stops_before_the_remaining_scripts (depth : Nat) :
    (setupDOM exampleHost { NewJSEngine pageReadMixed with dom := some 0 }).2 = none ∧
    (collectScripts exampleHost pageReadMixed 0).externalScripts = ["http://page.test/a.js"] ∧
    (collectScripts exampleHost pageReadMixed 0).inlineScripts = [srcReadInnerHTML, srcMark] ∧
    expectedBodies exampleHost pageReadMixed 0 = [srcSetResult, srcReadInnerHTML, srcMark] ∧
    (Execute exampleHost depth (NewJSEngine pageReadMixed) 0).2 = ExecResult.fatal ∧
    (Execute exampleHost depth (NewJSEngine pageReadMixed) 0).1.vm.ran
      = [srcSetResult, srcReadInnerHTML] := by
  have hs : (setupDOM exampleHost { NewJSEngine pageReadMixed with dom := some 0 }).2 = none := by
    decide!
  have hb : expectedBodies exampleHost (NewJSEngine pageReadMixed).heap 0
      = [srcSetResult, srcReadInnerHTML, srcMark] := by decide!
  have h0 : RunString exampleHost depth
      (setupDOM exampleHost { NewJSEngine pageReadMixed with dom := some 0 }).1 srcSetResult
      = RunString exampleHost 0
      (setupDOM exampleHost { NewJSEngine pageReadMixed with dom := some 0 }).1 srcSetResult :=
    RunString_assign_innerHTML_depth exampleHost depth _ 0 1 "result" "After JS" srcSetResult
      (by decide!) (by decide!) (by decide!) (by decide!) (by decide!) (by decide!)
  have hn : ¬ (RunString exampleHost 0
      (setupDOM exampleHost { NewJSEngine pageReadMixed with dom := some 0 }).1 srcSetResult).2
      = Completion.fatal := by decide!
  have hf : (RunString exampleHost depth
      (RunString exampleHost 0
        (setupDOM exampleHost { NewJSEngine pageReadMixed with dom := some 0 }).1 srcSetResult).1
      srcReadInnerHTML).2 = Completion.fatal :=
    RunString_read_innerHTML_fatal exampleHost depth _ 0 1 "result" "After JS" srcReadInnerHTML
      (by decide!) (by decide!) (by decide!) (by decide!) (by decide!) (by decide!) (by decide!)
      (by decide!)
  have hr := RunString_ran exampleHost depth
      (RunString exampleHost 0
        (setupDOM exampleHost { NewJSEngine pageReadMixed with dom := some 0 }).1 srcSetResult).1
      srcReadInnerHTML
  have hr0 : (RunString exampleHost 0
        (setupDOM exampleHost { NewJSEngine pageReadMixed with dom := some 0 }).1
        srcSetResult).1.vm.ran = [srcSetResult] := by decide!
  rw [hr0] at hr
  refine ⟨hs, by decide!, by decide!, hb, ?_, ?_⟩
  · rw [Execute_setup_ok exampleHost depth _ 0 hs, hb, runInlineScripts_cons, h0, if_neg hn,
      runInlineScripts_cons, if_pos hf]
    simp
  · rw [Execute_setup_ok exampleHost depth _ 0 hs, hb, runInlineScripts_cons, h0, if_neg hn,
      runInlineScripts_cons, if_pos hf]
    simpa using hr

/-- C2 (what the code does, against the claim). On the page
`<div id="result">Before JS</div><script>e = document.getElementById("result"); e.innerHTML = "After JS"; back = e.innerHTML;</script><script>mark = "c";</script>`
`setupDOM` succeeds on a new engine, and yet `Execute` does not return nil: the read of
`e.innerHTML` in the first script exhausts the Go stack, whatever stack is left, the
process ends inside that script, and the script after it is never run. -/
theorem Execute_does_not_return_nil_after_setupDOM (depth : Nat) :
    (setupDOM exampleHost { NewJSEngine pageReadThenMark with dom := some 0 }).2 = none ∧
    expectedBodies exampleHost pageReadThenMark 0 = [srcReadInnerHTML, srcMark] ∧
    (Execute exampleHost depth (NewJSEngine pageReadThenMark) 0).2 = ExecResult.fatal ∧
    (Execute exampleHost depth (NewJSEngine pageReadThenMark) 0).1.vm.ran = [srcReadInnerHTML] := by
  have hs : (setupDOM exampleHost { NewJSEngine pageReadThenMark with dom := some 0 }).2 = none := by
    decide!
  have hb : expectedBodies exampleHost (NewJSEngine pageReadThenMark).heap 0
      = [srcReadInnerHTML, srcMark] := by decide!
  have hf : (RunString exampleHost depth
      (setupDOM exampleHost { NewJSEngine pageReadThenMark with dom := some 0 }).1
      srcReadInnerHTML).2 = Completion.fatal :=
    RunString_read_innerHTML_fatal exampleHost depth _ 0 1 "result" "After JS" srcReadInnerHTML
      (by decide!) (by decide!) (by decide!) (by decide!) (by decide!) (by decide!) (by decide!)
      (by decide!)
  have hr := RunString_ran exampleHost depth
      (setupDOM exampleHost { NewJSEngine pageReadThenMark with dom := some 0 }).1 srcReadInnerHTML
  rw [setupDOM_ran] at hr
  refine ⟨hs, hb, ?_, ?_⟩
  · rw [Execute_setup_ok exampleHost depth _ 0 hs, hb, runInlineScripts_cons, if_pos hf]
    simp
  · rw [Execute_setup_ok exampleHost depth _ 0 hs, hb, runInlineScripts_cons, if_pos hf]
    simpa using hr

/-- C4 (what the code does, against the claim). The page
`<div id="a.b">Before JS</div><script>document.getElementById("a.b").innerHTML = "After JS";</script>`
has an element whose id is `a.b` and one inline script that assigns its `innerHTML`.
`getElementById` looks the element up with the selector `"#" + id`, that is `#a.b`,
which selects an element of id `a` and class `b`: nothing on this page. So the call
gives `null`, the assignment is a `TypeError`, `Execute` returns nil, and the text of
the element is still `Before JS`. -/
theorem getElementById_misses_an_id_with_a_dot (depth : Nat) :
    idOf (pageDottedId.cell 2) = some "a.b" ∧
    expectedBodies exampleHost pageDottedId 0 = [srcSetDotted] ∧
    exampleCompile srcSetDotted
      = some [Stmt.assignMember (byId "a.b") "innerHTML" (Expr.str "After JS")] ∧
    Find exampleHost pageDottedId [0] ("#" ++ "a.b") = [] ∧
    (RunString exampleHost depth
        (setupDOM exampleHost { NewJSEngine pageDottedId with dom := some 0 }).1 srcSetDotted).2
      = Completion.throw JSError.TypeError ∧
    (Execute exampleHost depth (NewJSEngine pageDottedId) 0).2 = ExecResult.returned none ∧
    (Execute exampleHost depth (NewJSEngine pageDottedId) 0).1.vm.ran = [srcSetDotted] ∧
    Text (Execute exampleHost depth (NewJSEngine pageDottedId) 0).1.heap [2] = "Before JS" := by
  have hs : (setupDOM exampleHost { NewJSEngine pageDottedId with dom := some 0 }).2 = none := by
    decide!
  have hb : expectedBodies exampleHost (NewJSEngine pageDottedId).heap 0 = [srcSetDotted] := by
    decide!
  obtain ⟨ht, hh⟩ := RunString_assign_innerHTML_null exampleHost depth
    (setupDOM exampleHost { NewJSEngine pageDottedId with dom := some 0 }).1 0 1 "a.b" "After JS"
    srcSetDotted (by decide!) (by decide!) (by decide!) (by decide!) (by decide!) (by decide!)
  have hn : ¬ (RunString exampleHost depth
      (setupDOM exampleHost { NewJSEngine pageDottedId with dom := some 0 }).1 srcSetDotted).2
      = Completion.fatal := by rw [ht]; simp
  have hr := RunString_ran exampleHost depth
      (setupDOM exampleHost { NewJSEngine pageDottedId with dom := some 0 }).1 srcSetDotted
  rw [setupDOM_ran] at hr
  have he : Execute exampleHost depth (NewJSEngine pageDottedId) 0
      = ((RunString exampleHost depth
          (setupDOM exampleHost { NewJSEngine pageDottedId with dom := some 0 }).1 srcSetDotted).1,
         ExecResult.returned none) := by
    rw [Execute_setup_ok exampleHost depth _ 0 hs, hb, runInlineScripts_cons, if_neg hn]
    simp [runInlineScripts]
  refine ⟨by decide!, hb, by decide!, by decide!, ht, ?_, ?_, ?_⟩
  · rw [he]
  · rw [he]; simpa using hr
  · rw [he]
    simp only []
    rw [hh]
    decide!

end Surf
